import Mathlib

/-!
Shallow embedding of the two data-access engines of the repository
`template_fast_api`:

* the universal search service
  (`src/core/services/search_service.py`, `src/core/schemas/search.py`,
  `src/core/exceptions/search.py`), and
* the batched bulk-update mixin (`src/core/mixins.py`).

Python exceptions are modelled with `Except`; the database session is
modelled as an explicit committed/pending pair of row lists.
-/

namespace TemplateFastApi

/-! ## Search schemas (`src/core/schemas/search.py`) -/

/-- `FilterOperator` enum (`in`/`not_in` are `inOp`/`notIn`). -/
inductive FilterOperator
  | contains
  | doesNotContain
  | equals
  | notEquals
  | startsWith
  | endsWith
  | isEmpty
  | isNotEmpty
  | greaterThan
  | lessThan
  | greaterOrEqual
  | lessOrEqual
  | inOp
  | notIn
deriving DecidableEq, Repr

/-- `SortDirection` enum. -/
inductive SortDirection
  | asc
  | desc
deriving DecidableEq, Repr

/-- `BaseFilterItem`: `{column: str, value: str, operator: FilterOperator}`. -/
structure BaseFilterItem where
  column : String
  value : String
  operator : FilterOperator
deriving DecidableEq, Repr

/-- `BaseSortItem`: `{column: str, direction: SortDirection}`. -/
structure BaseSortItem where
  column : String
  direction : SortDirection
deriving DecidableEq, Repr

/-- `SearchResponse.create`'s `total_pages` computation:
`(total + page_size - 1) // page_size if total > 0 else 0`. -/
def createTotalPages (total pageSize : Nat) : Nat :=
  if 0 < total then (total + pageSize - 1) / pageSize else 0

/-! ## Search exceptions (`src/core/exceptions/search.py`)

`pyAttrError` stands for a raw Python `AttributeError` escaping from
attribute access on a missing column object; it is not one of the four
`SearchError` subclasses but is still an `Exception`. -/

inductive SearchErr
  | invalidFilterField (fieldName modelName : String)
  | invalidSortField (fieldName modelName : String)
  | invalidSearchField (modelName : String)
  | filterValue (fieldName value expectedType : String)
  | pyAttrError (name : String)
deriving DecidableEq, Repr

/-! ## Column model

A column's SQLAlchemy type exposes `python_type`; `none` models a type
object without that attribute (`hasattr(column.type, 'python_type')`
false). -/

inductive PyType
  | tInt
  | tFloat
  | tDecimal
  | tBool
  | tStr
deriving DecidableEq, Repr

/-- `python_type.__name__` for the types dispatched on by
`_convert_filter_value`. -/
def PyType.pyName : PyType → String
  | .tInt => "int"
  | .tFloat => "float"
  | .tDecimal => "Decimal"
  | .tBool => "bool"
  | .tStr => "str"

/-- A resolved column object: its type's `python_type`, when exposed. -/
structure ColumnRef where
  pyType : Option PyType
deriving DecidableEq, Repr

/-- One entry of `join_columns`: `{'join': target, 'column': resolved}`,
either key possibly absent (`dict.get` returns `None`). -/
structure JoinColumn where
  join : Option String
  column : Option ColumnRef
deriving DecidableEq, Repr

/-- The SQLAlchemy model: its class name and its column attributes
(`getattr(self.model, name)`; `none` = attribute missing). -/
structure SModel where
  name : String
  columns : String → Option ColumnRef

/-! ## `SearchConfig` (`search_service.py` lines 28-41) -/

structure SearchConfig where
  simpleColumns : List String
  joinColumns : List (String × JoinColumn)
  searchableColumns : List String
  sortableColumns : List String

/-- Python truthiness of `x or d` for an optional list: `None` and the
empty list both fall back to the default. -/
def pyOrElse (x : Option (List α)) (d : List α) : List α :=
  match x with
  | none => d
  | some l => if l.isEmpty then d else l

/-- `SearchConfig.__init__`: `join_columns or {}`,
`searchable_columns or []`, `sortable_columns or simple_columns`. -/
def mkSearchConfig (simpleColumns : List String)
    (joinColumns : Option (List (String × JoinColumn)))
    (searchableColumns : Option (List String))
    (sortableColumns : Option (List String)) : SearchConfig :=
  { simpleColumns := simpleColumns
    joinColumns := pyOrElse joinColumns []
    searchableColumns := pyOrElse searchableColumns []
    sortableColumns := pyOrElse sortableColumns simpleColumns }

/-- Key lookup in the `join_columns` dict. -/
def SearchConfig.joinLookup (cfg : SearchConfig) (k : String) : Option JoinColumn :=
  (cfg.joinColumns.find? (fun p => p.1 == k)).map Prod.snd

/-- `column_name in self.config.join_columns`. -/
def SearchConfig.inJoin (cfg : SearchConfig) (k : String) : Bool :=
  cfg.joinColumns.any (fun p => p.1 == k)

/-! ## Value conversion (`_convert_filter_value`, lines 295-314)

`int(value)` / `float(value)` / `Decimal(value)` succeed or raise
`ValueError`; the model recognises the plain decimal forms (optional
surrounding blanks, optional sign, digits, and for float/Decimal an
optional fraction part).  Exotic accepted spellings (underscore digit
grouping, exponents, infinities) are outside the model. -/

/-- Python `str.strip()` on the character list. -/
def stripChars (cs : List Char) : List Char :=
  ((cs.dropWhile Char.isWhitespace).reverse.dropWhile Char.isWhitespace).reverse

/-- Python `str.strip()`. -/
def pyStrip (s : String) : String := ⟨stripChars s.toList⟩

/-- Python `str.lower()` (ASCII case folding). -/
def pyLower (s : String) : String := ⟨s.toList.map Char.toLower⟩

def natOfDigits (cs : List Char) : Nat :=
  cs.foldl (fun acc c => 10 * acc + (c.toNat - '0'.toNat)) 0

/-- Signed-integer syntax of Python `int(str)` on a stripped string. -/
def pyIntParse (s : String) : Option Int :=
  let cs := stripChars s.toList
  match cs with
  | '+' :: rest =>
      if rest ≠ [] ∧ rest.all Char.isDigit then some (natOfDigits rest) else none
  | '-' :: rest =>
      if rest ≠ [] ∧ rest.all Char.isDigit then some (-(natOfDigits rest : Int)) else none
  | _ =>
      if cs ≠ [] ∧ cs.all Char.isDigit then some (natOfDigits cs) else none

/-- Digit run with optional single dot, at least one digit in total. -/
def mantissaOk (cs : List Char) : Bool :=
  let ip := cs.takeWhile Char.isDigit
  let rest := cs.dropWhile Char.isDigit
  match rest with
  | [] => !ip.isEmpty
  | '.' :: fp => fp.all Char.isDigit && (!ip.isEmpty || !fp.isEmpty)
  | _ => false

/-- Numeric syntax accepted by the model for `float(...)`/`Decimal(...)`. -/
def numericSyntaxOk (s : String) : Bool :=
  let cs := stripChars s.toList
  match cs with
  | '+' :: rest => mantissaOk rest
  | '-' :: rest => mantissaOk rest
  | rest => mantissaOk rest

/-- A converted filter value.  Float and Decimal conversions keep the raw
text: the engines never compute with the numeric value, only with
convertibility. -/
inductive SVal
  | sInt (n : Int)
  | sFloat (raw : String)
  | sDecimal (raw : String)
  | sBool (b : Bool)
  | sStr (s : String)
deriving DecidableEq, Repr

/-- `_convert_filter_value(column, value, column_name)`. -/
def convertFilterValue (colType : Option PyType) (value columnName : String) :
    Except SearchErr SVal :=
  match colType with
  | none => .ok (.sStr (pyStrip value))
  | some t =>
    match t with
    | .tInt =>
        match pyIntParse value with
        | some n => .ok (.sInt n)
        | none => .error (.filterValue columnName value PyType.tInt.pyName)
    | .tFloat =>
        if numericSyntaxOk value then .ok (.sFloat value)
        else .error (.filterValue columnName value PyType.tFloat.pyName)
    | .tDecimal =>
        if numericSyntaxOk value then .ok (.sDecimal value)
        else .error (.filterValue columnName value PyType.tDecimal.pyName)
    | .tBool =>
        .ok (.sBool (["true", "1", "yes", "on"].contains (pyLower value)))
    | .tStr => .ok (.sStr (pyStrip value))

/-! ## Filter condition building (`_build_filter_condition`, lines 230-293) -/

/-- A symbolic SQLAlchemy filter condition over the resolved column. -/
inductive Cond
  | eqC (column : String) (v : SVal)
  | neC (column : String) (v : SVal)
  | containsC (column : String) (v : SVal)
  | notContainsC (column : String) (v : SVal)
  | startsWithC (column : String) (v : SVal)
  | endsWithC (column : String) (v : SVal)
  | isEmptyC (column : String)
  | isNotEmptyC (column : String)
  | gtC (column : String) (v : SVal)
  | ltC (column : String) (v : SVal)
  | geC (column : String) (v : SVal)
  | leC (column : String) (v : SVal)
  | inC (column : String) (vs : List SVal)
  | notInC (column : String) (vs : List SVal)
deriving DecidableEq, Repr

/-- Python `str.split(',')` on the character list. -/
def splitCommaAux : List Char → List Char → List (List Char)
  | [], acc => [acc.reverse]
  | c :: rest, acc =>
    if c = ',' then acc.reverse :: splitCommaAux rest []
    else splitCommaAux rest (c :: acc)

/-- `[v.strip() for v in value.split(',')]`. -/
def splitCsv (value : String) : List String :=
  (splitCommaAux value.toList []).map (fun cs => pyStrip ⟨cs⟩)

/-- Convert every token of a comma list, failing on the first bad one. -/
def convertAll (colType : Option PyType) (columnName : String) :
    List String → Except SearchErr (List SVal)
  | [] => .ok []
  | v :: vs =>
    match convertFilterValue colType v columnName with
    | .error e => .error e
    | .ok sv =>
      match convertAll colType columnName vs with
      | .error e => .error e
      | .ok svs => .ok (sv :: svs)

/-- Operator dispatch of `_build_filter_condition` after the one
unconditional value conversion; the trailing `return None` of the source
is the `Option.none` result (unreachable for the total enum, kept for
shape fidelity). -/
def buildCondFromOp (colType : Option PyType) (columnName value : String)
    (operator : FilterOperator) (convertedValue : SVal) :
    Except SearchErr (Option Cond) :=
  match operator with
  | .equals => .ok (some (.eqC columnName convertedValue))
  | .notEquals => .ok (some (.neC columnName convertedValue))
  | .contains => .ok (some (.containsC columnName convertedValue))
  | .doesNotContain => .ok (some (.notContainsC columnName convertedValue))
  | .startsWith => .ok (some (.startsWithC columnName convertedValue))
  | .endsWith => .ok (some (.endsWithC columnName convertedValue))
  | .isEmpty => .ok (some (.isEmptyC columnName))
  | .isNotEmpty => .ok (some (.isNotEmptyC columnName))
  | .greaterThan => .ok (some (.gtC columnName convertedValue))
  | .lessThan => .ok (some (.ltC columnName convertedValue))
  | .greaterOrEqual => .ok (some (.geC columnName convertedValue))
  | .lessOrEqual => .ok (some (.leC columnName convertedValue))
  | .inOp =>
    match convertAll colType columnName (splitCsv value) with
    | .error e => .error e
    | .ok vs => .ok (some (.inC columnName vs))
  | .notIn =>
    match convertAll colType columnName (splitCsv value) with
    | .error e => .error e
    | .ok vs => .ok (some (.notInC columnName vs))

/-- `_build_filter_condition(filter_item)`. -/
def buildFilterCondition (m : SModel) (cfg : SearchConfig)
    (filterItem : BaseFilterItem) : Except SearchErr (Option Cond) :=
  let columnName := filterItem.column
  let value := filterItem.value
  if ¬ (columnName ∈ cfg.simpleColumns) ∧ ¬ (cfg.inJoin columnName = true) then
    .error (.invalidFilterField columnName m.name)
  else
    let colGot : Except SearchErr (Option ColumnRef) :=
      if columnName ∈ cfg.simpleColumns then
        match m.columns columnName with
        | none => .error (.pyAttrError columnName)
        | some col => .ok (some col)
      else
        .ok ((cfg.joinLookup columnName).bind (fun jc => jc.column))
    match colGot with
    | .error e => .error e
    | .ok none => .error (.invalidFilterField columnName m.name)
    | .ok (some col) =>
      match convertFilterValue col.pyType value columnName with
      | .error e => .error e
      | .ok convertedValue =>
        buildCondFromOp col.pyType columnName value filterItem.operator convertedValue

/-- `_apply_filters(query, filters)`: any exception from building a
single condition is replaced with
`FilterValueError(column, value, "valid filter value")`. -/
def applyFilters (m : SModel) (cfg : SearchConfig) :
    List BaseFilterItem → Except SearchErr (List Cond)
  | [] => .ok []
  | filterItem :: rest =>
    match buildFilterCondition m cfg filterItem with
    | .error _ =>
        .error (.filterValue filterItem.column filterItem.value "valid filter value")
    | .ok cond =>
      match applyFilters m cfg rest with
      | .error e => .error e
      | .ok conds =>
        match cond with
        | some c => .ok (c :: conds)
        | none => .ok conds

/-! ## Sorting (`_apply_sorting`, lines 316-352) -/

/-- `_apply_sorting(query, sorts, joined_tables)`, reduced to the ordered
list of `(column name, direction)` keys it appends; every failure path of
the source is preserved (the final `else` raise is line 344, and a join
entry without a `column` object would crash on `column.desc()`). -/
def applySorting (m : SModel) (cfg : SearchConfig) :
    List BaseSortItem → Except SearchErr (List (String × SortDirection))
  | [] => .ok []
  | sortItem :: rest =>
    let columnName := sortItem.column
    if ¬ (columnName ∈ cfg.sortableColumns) ∧ ¬ (cfg.inJoin columnName = true) then
      .error (.invalidSortField columnName m.name)
    else
      let colGot : Except SearchErr Unit :=
        if columnName ∈ cfg.simpleColumns then
          match m.columns columnName with
          | none => .error (.pyAttrError columnName)
          | some _ => .ok ()
        else if cfg.inJoin columnName then
          match (cfg.joinLookup columnName).bind (fun jc => jc.column) with
          | none => .error (.pyAttrError columnName)
          | some _ => .ok ()
        else
          .error (.invalidSortField columnName m.name)
      match colGot with
      | .error e => .error e
      | .ok () =>
        match applySorting m cfg rest with
        | .error e => .error e
        | .ok keys => .ok ((columnName, sortItem.direction) :: keys)

/-! ## Bulk update (`src/core/mixins.py`)

Machine model: a table row is an id plus an association list of column
values (`none` = SQL NULL); the async session is an explicit pair of the
committed database state and the pending transaction view.  A
data-integrity violation is signalled by the table's `violates`
predicate holding on some row state an executed statement produced. -/

abbrev Val := Int

structure DbRow where
  id : Int
  fields : List (String × Option Val)
deriving DecidableEq, Repr

/-- `self.model.__table__` together with the constraint checker of the
underlying engine. -/
structure Table where
  hasWorkspace : Bool
  violates : DbRow → Bool

/-- Read one column of a row (an absent column reads as NULL). -/
def getField (r : DbRow) (k : String) : Option Val :=
  match r.fields.find? (fun p => p.1 == k) with
  | some p => p.2
  | none => none

/-- The workspace predicate a statement's WHERE clause adds when the
table has a `workspace_id` column (`t.workspace_id = :workspace_id`;
a NULL workspace never equals the bound parameter). -/
def wsOk (t : Table) (workspaceId : Int) (r : DbRow) : Bool :=
  !t.hasWorkspace || getField r "workspace_id" == some workspaceId

structure Session where
  committed : List DbRow
  pending : List DbRow
deriving DecidableEq, Repr

def commitS (s : Session) : Session := ⟨s.pending, s.pending⟩

def rollbackS (s : Session) : Session := ⟨s.committed, s.committed⟩

inductive DbEvent
  | execBatch
  | execRow
  | commit
  | rollback
deriving DecidableEq, Repr

/-- `_MAX_QUERY_PARAMS` (line 50). -/
def MAX_QUERY_PARAMS : Nat := 20000

/-- One pydantic payload object: its mandatory `id` and the remaining
attributes of `model_dump(exclude_none=False)` (a dump without an `id`
raises before any processing, so the model requires it structurally). -/
structure UpdateItem where
  id : Int
  fields : List (String × Option Val)
deriving DecidableEq, Repr

/-- The full dump dict, `id` entry included. -/
def rawOf (item : UpdateItem) : List (String × Option Val) :=
  ("id", some item.id) :: item.fields

/-- `raw.get(k)`: `None` when the key is absent. -/
def rawGet (raw : List (String × Option Val)) (k : String) : Option Val :=
  match raw.find? (fun p => p.1 == k) with
  | some p => p.2
  | none => none

/-- A normalised row: `id` plus the candidate columns to write
(`cand = []` is the `__empty` marker of the source). -/
structure NormRow where
  id : Int
  cand : List (String × Option Val)
deriving DecidableEq, Repr

/-- Step 1 of `bulk_update` (lines 109-136): select the fields to write
for one payload object. -/
def normalizeItem (updateFields : Option (List String)) (includeNone : Bool)
    (item : UpdateItem) : NormRow :=
  let raw := rawOf item
  let cand : List (String × Option Val) :=
    match updateFields with
    | none =>
        raw.filter (fun p => p.1 ≠ "id" && (p.2.isSome || includeNone))
    | some ufs =>
        ufs.filterMap (fun k =>
          let v := rawGet raw k
          if v.isSome || includeNone then some (k, v) else none)
  ⟨item.id, cand⟩

/-- Insertion sort on strings (`sorted(cols_set)`). -/
def insertStr (x : String) : List String → List String
  | [] => [x]
  | y :: ys => if x ≤ y then x :: y :: ys else y :: insertStr x ys

def sortStrings (l : List String) : List String := l.foldr insertStr []

/-- The field names a normalised row will write (its keys other than
`id`; `__empty` is represented by `cand = []`). -/
def writtenFields (r : NormRow) : List String :=
  (r.cand.map Prod.fst).filter (fun k => k ≠ "id")

/-- `frozenset(k for k in row.keys() if k not in ("id", "__empty"))`,
kept as its canonical sorted listing (the source sorts the set before
use anyway, line 150). -/
def colsOf (r : NormRow) : List String :=
  sortStrings (writtenFields r).dedup

/-- Append row `r` to the group keyed `k`, creating it at the end if new
(Python dict insertion order). -/
def addToGroups (gs : List (List String × List NormRow)) (k : List String)
    (r : NormRow) : List (List String × List NormRow) :=
  match gs with
  | [] => [(k, [r])]
  | (k2, rs) :: rest =>
    if k2 = k then (k2, rs ++ [r]) :: rest
    else (k2, rs) :: addToGroups rest k r

def groupByColsAux (gs : List (List String × List NormRow)) :
    List NormRow → List (List String × List NormRow)
  | [] => gs
  | r :: rest =>
    if colsOf r = [] then groupByColsAux gs rest
    else groupByColsAux (addToGroups gs (colsOf r) r) rest

/-- Step 2 of `bulk_update` (lines 138-144): group by column set,
skipping rows that have nothing to update. -/
def groupByCols (rows : List NormRow) : List (List String × List NormRow) :=
  groupByColsAux [] rows

/-- `_MAX_QUERY_PARAMS // num_columns or 1` (line 152). -/
def maxRowsPerBatch (numColumns : Nat) : Nat :=
  let q := MAX_QUERY_PARAMS / numColumns
  if q = 0 then 1 else q

/-- `itertools.batched(rows, n)` for a positive chunk size `n`: the next
`n` items per chunk (`batched` rejects `n < 1`). -/
def chunkList (n : Nat) : List α → List (List α)
  | [] => []
  | x :: xs => (x :: xs.take (n - 1)) :: chunkList n (xs.drop (n - 1))
termination_by l => l.length
decreasing_by
  simp only [List.length_cons, List.length_drop]
  omega

/-- `row.get(col)` on a normalised row. -/
def candGet (r : NormRow) (k : String) : Option Val :=
  match r.cand.find? (fun p => p.1 == k) with
  | some p => p.2
  | none => none

/-- Overwrite one column of a stored row. -/
def setField (fs : List (String × Option Val)) (k : String) (v : Option Val) :
    List (String × Option Val) :=
  match fs with
  | [] => [(k, v)]
  | (k2, v2) :: rest =>
    if k2 == k then (k2, v) :: rest else (k2, v2) :: setField rest k v

/-- The SET clause applied to one matched target row: every column of
`cols` receives the batch row's value. -/
def applyRow (cols : List String) (d : NormRow) (r : DbRow) : DbRow :=
  { r with fields := cols.foldl (fun fs c => setField fs c (candGet d c)) r.fields }

/-- One mapping of the RETURNING clause: `t.id` plus the new values of
the update columns. -/
structure RetRow where
  id : Int
  vals : List (String × Option Val)
deriving DecidableEq, Repr

def retOf (cols : List String) (r : DbRow) : RetRow :=
  ⟨r.id, cols.map (fun c => (c, getField r c))⟩

structure ErrEntry where
  id : Int
  error : String
deriving DecidableEq, Repr

def rowNotFoundMsg : String := "row not found or workspace mismatch"

def noFieldsMsg : String := "no fields to update"

/-- `str(exc)` of a driver `IntegrityError`: engine-produced text, kept
abstract as one fixed string. -/
def integrityMsg : String := "IntegrityError"

/-- The new state of one target row under the batch statement's
`WHERE t.id = d.id AND t.workspace_id = :workspace_id`, when it is
matched. -/
def batchTouchFn (t : Table) (workspaceId : Int) (batch : List NormRow)
    (cols : List String) (r : DbRow) : Option DbRow :=
  match batch.find? (fun d => d.id == r.id) with
  | some d => if wsOk t workspaceId r then some (applyRow cols d r) else none
  | none => none

/-- One target row after the batch statement (unmatched rows are kept). -/
def batchUpdFn (t : Table) (workspaceId : Int) (batch : List NormRow)
    (cols : List String) (r : DbRow) : DbRow :=
  match batch.find? (fun d => d.id == r.id) with
  | some d => if wsOk t workspaceId r then applyRow cols d r else r
  | none => r

/-- `_execute_batch_update` (lines 201-259): the single
`UPDATE … FROM (VALUES …) … RETURNING` statement.  A target row is
matched when some batch row carries its id and the workspace predicate
holds; `.error ()` is the statement aborting with `IntegrityError`,
leaving the database untouched.  Returned are the new database state,
the RETURNING rows, and `sent_ids - updated_ids`. -/
def executeBatchUpdate (t : Table) (workspaceId : Int) (db : List DbRow)
    (batch : List NormRow) (cols : List String) :
    Except Unit (List DbRow × List RetRow × List Int) :=
  let touched := db.filterMap (batchTouchFn t workspaceId batch cols)
  if touched.any t.violates then .error ()
  else
    let newDb := db.map (batchUpdFn t workspaceId batch cols)
    let rets := touched.map (retOf cols)
    let updatedIds := rets.map (fun rr => rr.id)
    let missing := ((batch.map (fun d => d.id)).dedup).filter
      (fun i => !updatedIds.contains i)
    .ok (newDb, rets, missing)

/-- The new state of one target row under a single-row fallback
statement's `WHERE id = :id AND workspace_id = :workspace_id`, when it
is matched. -/
def singleTouchFn (t : Table) (workspaceId : Int) (cols : List String)
    (row : NormRow) (r : DbRow) : Option DbRow :=
  if r.id == row.id && wsOk t workspaceId r then some (applyRow cols row r)
  else none

/-- One target row after a single-row fallback statement. -/
def singleUpdFn (t : Table) (workspaceId : Int) (cols : List String)
    (row : NormRow) (r : DbRow) : DbRow :=
  if r.id == row.id && wsOk t workspaceId r then applyRow cols row r else r

/-- `_fallback_row_by_row` (lines 261-291): one statement per row under
the same id + workspace constraints and the same column list; success
commits that row alone, a per-row `IntegrityError` rolls back and is
recorded as that row's error, a miss is recorded as
`rowNotFoundMsg` — and in every case the loop continues. -/
def fallbackRowByRow (t : Table) (workspaceId : Int) (cols : List String) :
    Session → List NormRow →
    List RetRow × List ErrEntry × Session × List DbEvent
  | s, [] => ([], [], s, [])
  | s, row :: rest =>
    let touched := s.pending.filterMap (singleTouchFn t workspaceId cols row)
    if touched.any t.violates then
      let out := fallbackRowByRow t workspaceId cols (rollbackS s) rest
      (out.1, ⟨row.id, integrityMsg⟩ :: out.2.1, out.2.2.1,
        DbEvent.execRow :: DbEvent.rollback :: out.2.2.2)
    else
      let newPending := s.pending.map (singleUpdFn t workspaceId cols row)
      match touched.head? with
      | some outRow =>
        let s1 := commitS ⟨s.committed, newPending⟩
        let out := fallbackRowByRow t workspaceId cols s1 rest
        (retOf cols outRow :: out.1, out.2.1, out.2.2.1,
          DbEvent.execRow :: DbEvent.commit :: out.2.2.2)
      | none =>
        let out := fallbackRowByRow t workspaceId cols ⟨s.committed, newPending⟩ rest
        (out.1, ⟨row.id, rowNotFoundMsg⟩ :: out.2.1, out.2.2.1,
          DbEvent.execRow :: out.2.2.2)

/-- Lines 158-187 of `bulk_update`: one chunk — try the set-based
statement; on `IntegrityError` roll back and fall back row by row,
otherwise record results, turn each missing id into the not-found
error, and commit. -/
def processChunk (t : Table) (workspaceId : Int) (s : Session)
    (batch : List NormRow) (cols : List String) :
    List RetRow × List ErrEntry × Session × List DbEvent :=
  match executeBatchUpdate t workspaceId s.pending batch cols with
  | .error _ =>
    let out := fallbackRowByRow t workspaceId cols (rollbackS s) batch
    (out.1, out.2.1, out.2.2.1,
      DbEvent.execBatch :: DbEvent.rollback :: out.2.2.2)
  | .ok (newDb, rets, missing) =>
    let s1 := commitS ⟨s.committed, newDb⟩
    (rets, missing.map (fun i => (⟨i, rowNotFoundMsg⟩ : ErrEntry)), s1,
      [DbEvent.execBatch, DbEvent.commit])

def processChunks (t : Table) (workspaceId : Int) (cols : List String) :
    Session → List (List NormRow) →
    List RetRow × List ErrEntry × Session × List DbEvent
  | s, [] => ([], [], s, [])
  | s, batch :: rest =>
    if batch.isEmpty then processChunks t workspaceId cols s rest
    else
      let out := processChunk t workspaceId s batch cols
      let out2 := processChunks t workspaceId cols out.2.2.1 rest
      (out.1 ++ out2.1, out.2.1 ++ out2.2.1, out2.2.2.1, out.2.2.2 ++ out2.2.2.2)

/-- Lines 149-157: per group, sort the column set, size the chunks by
the parameter ceiling, and process each chunk in order. -/
def processGroups (t : Table) (workspaceId : Int) :
    Session → List (List String × List NormRow) →
    List RetRow × List ErrEntry × Session × List DbEvent
  | s, [] => ([], [], s, [])
  | s, (colsKey, rows) :: rest =>
    let numColumns := 1 + colsKey.length
    let maxRows := maxRowsPerBatch numColumns
    let out := processChunks t workspaceId colsKey s (chunkList maxRows rows)
    let out2 := processGroups t workspaceId out.2.2.1 rest
    (out.1 ++ out2.1, out.2.1 ++ out2.2.1, out2.2.2.1, out.2.2.2 ++ out2.2.2.2)

structure BulkUpdateResult where
  updated : List RetRow
  errors : List ErrEntry
deriving DecidableEq, Repr

/-- `bulk_update` (lines 70-195), returning the result together with the
final session and the trace of statement/transaction events. -/
def bulkUpdate (t : Table) (workspaceId : Int) (s : Session)
    (payload : List UpdateItem) (updateFields : Option (List String))
    (includeNone : Bool) : BulkUpdateResult × Session × List DbEvent :=
  if payload.isEmpty then (⟨[], []⟩, s, [])
  else
    let normalised := payload.map (normalizeItem updateFields includeNone)
    let groups := groupByCols normalised
    let out := processGroups t workspaceId s groups
    let emptyErrs := normalised.filterMap (fun r =>
      if r.cand.isEmpty then some (⟨r.id, noFieldsMsg⟩ : ErrEntry) else none)
    (⟨out.1, out.2.1 ++ emptyErrs⟩, out.2.2.1, out.2.2.2)

/-! ## Concrete fixtures for witnesses and counterexamples -/

/-- An example entity with a string column and an integer column. -/
def exModel : SModel :=
  { name := "Example"
    columns := fun n =>
      if n = "name" then some ⟨some .tStr⟩
      else if n = "age" then some ⟨some .tInt⟩
      else none }

def exCfg : SearchConfig := mkSearchConfig ["name", "age"] none none none

/-- A config whose join map has a field that is not in the sortable set. -/
def exCfgJoin : SearchConfig :=
  mkSearchConfig ["name"] (some [("cat", ⟨some "Cat", some ⟨some .tStr⟩⟩)]) none none

/-! ## Helper lemmas -/

/-- The surfaced error is the `FilterValueError` that `_apply_filters`
raises with the fixed `"valid filter value"` placeholder. -/
def errIsPlaceholderFilterValue : Except SearchErr (List Cond) → Bool
  | .error (.filterValue _ _ t) => t == "valid filter value"
  | _ => false

theorem applyFilters_error_of_mem (m : SModel) (cfg : SearchConfig)
    (filters : List BaseFilterItem) (item : BaseFilterItem) (e : SearchErr)
    (hmem : item ∈ filters)
    (hb : buildFilterCondition m cfg item = .error e) :
    (applyFilters m cfg filters).isOk = false ∧
    errIsPlaceholderFilterValue (applyFilters m cfg filters) = true := by
  induction filters with
  | nil => cases hmem
  | cons head rest ih =>
    rcases List.mem_cons.mp hmem with hEq | hTail
    · subst hEq
      simp [applyFilters, hb, errIsPlaceholderFilterValue, Except.isOk, Except.toBool]
    · cases hbc : buildFilterCondition m cfg head with
      | error e2 =>
        simp [applyFilters, hbc, errIsPlaceholderFilterValue, Except.isOk, Except.toBool]
      | ok cond =>
        obtain ⟨h1, h2⟩ := ih hTail
        cases hra : applyFilters m cfg rest with
        | error e3 =>
          rw [hra] at h2
          cases cond <;>
            simpa [applyFilters, hbc, hra, errIsPlaceholderFilterValue,
              Except.isOk, Except.toBool] using h2
        | ok conds =>
          rw [hra] at h1
          simp [Except.isOk, Except.toBool] at h1

/-! ## C3 -/

/-- **C3, counterexample.**  Filtering on a field absent from both
`simpleColumns` and `joinColumns` surfaces
`FilterValueError('bogus', 'x', 'valid filter value')` — the
type-mismatch error kind — and not the distinct invalid-filter-field
error kind the claim requires: `_apply_filters` catches the
`InvalidFilterFieldError` raised inside `_build_filter_condition` and
replaces it. -/
theorem claim3_counterexample :
    applyFilters exModel exCfg [⟨"bogus", "x", .equals⟩]
      = .error (.filterValue "bogus" "x" "valid filter value") ∧
    SearchErr.filterValue "bogus" "x" "valid filter value"
      ≠ SearchErr.invalidFilterField "bogus" "Example" := by
  constructor
  · rfl
  · decide

/-- **C3 (amended).**  A filter clause whose column is absent from both
`simpleColumns` and `joinColumns` always fails the whole search — it is
never silently ignored — but the surfaced error is the filter-value
error kind with the fixed placeholder `"valid filter value"`; the
invalid-filter-field error is raised internally by
`_build_filter_condition` and is swallowed by `_apply_filters`'s broad
exception handler. -/
theorem claim3_unknown_filter_field_fails (m : SModel) (cfg : SearchConfig)
    (filters : List BaseFilterItem) (item : BaseFilterItem)
    (hmem : item ∈ filters)
    (hs : item.column ∉ cfg.simpleColumns)
    (hj : cfg.inJoin item.column = false) :
    buildFilterCondition m cfg item
      = .error (.invalidFilterField item.column m.name) ∧
    (applyFilters m cfg filters).isOk = false ∧
    errIsPlaceholderFilterValue (applyFilters m cfg filters) = true := by
  have hb : buildFilterCondition m cfg item
      = .error (.invalidFilterField item.column m.name) := by
    unfold buildFilterCondition
    rw [if_pos ⟨hs, by simp [hj]⟩]
  exact ⟨hb, applyFilters_error_of_mem m cfg filters item _ hmem hb⟩

/-- Witness for `claim3_unknown_filter_field_fails` at a concrete
request. -/
theorem claim3_witness :
    buildFilterCondition exModel exCfg ⟨"bogus", "x", .equals⟩
      = .error (.invalidFilterField "bogus" "Example") ∧
    (applyFilters exModel exCfg [⟨"bogus", "x", .equals⟩]).isOk = false ∧
    errIsPlaceholderFilterValue
      (applyFilters exModel exCfg [⟨"bogus", "x", .equals⟩]) = true :=
  claim3_unknown_filter_field_fails exModel exCfg _ _
    (List.mem_singleton.mpr rfl) (by decide) (by decide)

/-! ## C4 -/

/-- **C4, counterexample.**  A filter on the integer column `age` with
the non-convertible value `"abc"` fails, but the surfaced error carries
the fixed string `"valid filter value"` where the claim requires the
expected type name (`"int"`): the typed `FilterValueError` raised by
`_convert_filter_value` is caught in `_apply_filters` and re-raised
with the placeholder. -/
theorem claim4_counterexample :
    applyFilters exModel exCfg [⟨"age", "abc", .equals⟩]
      = .error (.filterValue "age" "abc" "valid filter value") ∧
    ("valid filter value" : String) ≠ "int" := by
  constructor
  · rfl
  · decide

/-- **C4 (amended).**  When a filter value cannot be converted to the
resolved column's scalar type, the inner conversion error does name the
field, the raw value and the expected type name, but the error the
search surfaces names only the field and the raw value, with the fixed
placeholder `"valid filter value"` in place of the expected type name. -/
theorem claim4_conversion_error_context (m : SModel) (cfg : SearchConfig)
    (filters : List BaseFilterItem) (item : BaseFilterItem) (t : PyType)
    (colRef : ColumnRef) (e : SearchErr)
    (hmem : item ∈ filters)
    (hsimple : item.column ∈ cfg.simpleColumns)
    (hcol : m.columns item.column = some colRef)
    (hty : colRef.pyType = some t)
    (hconv : convertFilterValue (some t) item.value item.column = .error e) :
    e = .filterValue item.column item.value t.pyName ∧
    (applyFilters m cfg filters).isOk = false ∧
    errIsPlaceholderFilterValue (applyFilters m cfg filters) = true := by
  have hname : e = .filterValue item.column item.value t.pyName := by
    cases t <;>
      simp only [convertFilterValue] at hconv <;>
      [skip; skip; skip; exact absurd hconv (by simp); exact absurd hconv (by simp)]
    · cases hp : pyIntParse item.value <;> rw [hp] at hconv <;>
        simp_all
    · by_cases hn : numericSyntaxOk item.value = true <;> simp_all
    · by_cases hn : numericSyntaxOk item.value = true <;> simp_all
  have hb : buildFilterCondition m cfg item = .error e := by
    unfold buildFilterCondition
    rw [if_neg (by simp [hsimple])]
    simp only [if_pos hsimple, hcol, hty, hconv]
  exact ⟨hname, applyFilters_error_of_mem m cfg filters item e hmem hb⟩

/-- Witness for `claim4_conversion_error_context` at a concrete
request. -/
theorem claim4_witness :
    (SearchErr.filterValue "age" "abc" "int"
        = .filterValue "age" "abc" PyType.tInt.pyName) ∧
    (applyFilters exModel exCfg [⟨"age", "abc", .equals⟩]).isOk = false ∧
    errIsPlaceholderFilterValue
      (applyFilters exModel exCfg [⟨"age", "abc", .equals⟩]) = true :=
  claim4_conversion_error_context exModel exCfg
    [⟨"age", "abc", .equals⟩] ⟨"age", "abc", .equals⟩ PyType.tInt ⟨some .tInt⟩
    (.filterValue "age" "abc" "int")
    (List.mem_singleton.mpr rfl) (by decide) rfl rfl rfl

/-! ## C8 -/

/-- **C8, counterexample.**  With `simpleColumns = ["name"]`, a join
column `"cat"`, and `sortableColumns` left unspecified (defaulting to
`["name"]`), a sort on `"cat"` — a field outside `sortableColumns` —
succeeds instead of failing with the invalid-sort-field error:
`_apply_sorting` also accepts any field of `joinColumns`. -/
theorem claim8_counterexample :
    applySorting exModel exCfgJoin [⟨"cat", .asc⟩]
      = .ok [("cat", SortDirection.asc)] ∧
    ("cat" ∉ exCfgJoin.sortableColumns) := by
  constructor
  · rfl
  · decide

/-- **C8 (amended).**  A sort clause passes validation exactly when its
field is in `sortableColumns` **or** in `joinColumns` (not
`sortableColumns` alone); `sortableColumns` still defaults to
`simpleColumns` when unspecified, and a sort clause on a field outside
that union fails the search with the invalid-sort-field error. -/
theorem claim8_sort_eligibility (m : SModel) (cfg : SearchConfig)
    (simple : List String) (join : Option (List (String × JoinColumn)))
    (searchable : Option (List String))
    (sorts : List BaseSortItem) (keys : List (String × SortDirection))
    (item : BaseSortItem) (rest : List BaseSortItem)
    (hok : applySorting m cfg sorts = .ok keys)
    (hs : item.column ∉ cfg.sortableColumns)
    (hj : cfg.inJoin item.column = false) :
    (mkSearchConfig simple join searchable none).sortableColumns = simple ∧
    (∀ it ∈ sorts, it.column ∈ cfg.sortableColumns ∨ cfg.inJoin it.column = true) ∧
    applySorting m cfg (item :: rest)
      = .error (.invalidSortField item.column m.name) := by
  refine ⟨rfl, ?_, ?_⟩
  · clear hs hj
    induction sorts generalizing keys with
    | nil => intro it hit; cases hit
    | cons head tail ih =>
      intro it hit
      rw [applySorting] at hok
      by_cases hv : ¬ (head.column ∈ cfg.sortableColumns) ∧
          ¬ (cfg.inJoin head.column = true)
      · rw [if_pos hv] at hok
        cases hok
      · rw [if_neg hv] at hok
        rcases List.mem_cons.mp hit with hEq | hTail
        · subst hEq
          rcases not_and_or.mp hv with h | h
          · exact Or.inl (not_not.mp h)
          · exact Or.inr (not_not.mp h)
        · rcases hcg : (if head.column ∈ cfg.simpleColumns then
              match m.columns head.column with
              | none => Except.error (SearchErr.pyAttrError head.column)
              | some _ => Except.ok ()
            else if cfg.inJoin head.column then
              match (cfg.joinLookup head.column).bind (fun jc => jc.column) with
              | none => Except.error (SearchErr.pyAttrError head.column)
              | some _ => Except.ok ()
            else Except.error (SearchErr.invalidSortField head.column m.name) :
              Except SearchErr Unit) with _ | u
          · rw [hcg] at hok; cases hok
          · rw [hcg] at hok
            cases u
            rcases hra : applySorting m cfg tail with _ | tailKeys
            · rw [hra] at hok; cases hok
            · exact ih tailKeys hra it hTail
  · rw [applySorting, if_pos ⟨hs, by simp [hj]⟩]

/-- Witness for `claim8_sort_eligibility` at a concrete request. -/
theorem claim8_witness :
    (mkSearchConfig ["name"] none none none).sortableColumns = ["name"] ∧
    (∀ it ∈ ([⟨"name", .asc⟩] : List BaseSortItem),
      it.column ∈ exCfg.sortableColumns ∨ exCfg.inJoin it.column = true) ∧
    applySorting exModel exCfg [⟨"height", .desc⟩]
      = .error (.invalidSortField "height" "Example") :=
  claim8_sort_eligibility exModel exCfg ["name"] none none
    [⟨"name", .asc⟩] [("name", SortDirection.asc)] ⟨"height", .desc⟩ []
    rfl (by decide) (by decide)

/-! ## C9 -/

/-- **C9.**  `SearchResponse.create` sets
`total_pages = ceil(total / page_size)` whenever `total > 0`, and `0`
when `total = 0` (for the positive page sizes the request schema
admits). -/
theorem claim9_total_pages (total pageSize : Nat) (hps : 0 < pageSize) :
    (0 < total →
      createTotalPages total pageSize = Nat.ceil ((total : ℚ) / (pageSize : ℚ))) ∧
    (total = 0 → createTotalPages total pageSize = 0) := by
  constructor
  · intro ht
    rw [createTotalPages, if_pos ht]
    have hq : (0 : ℚ) < (pageSize : ℚ) := by exact_mod_cast hps
    apply Nat.le_antisymm
    · rw [Nat.div_le_iff_le_mul_add_pred hps]
      have hle : (total : ℚ) / (pageSize : ℚ)
          ≤ (Nat.ceil ((total : ℚ) / (pageSize : ℚ)) : ℚ) := Nat.le_ceil _
      rw [div_le_iff₀ hq, mul_comm] at hle
      have h4 : total ≤ pageSize * Nat.ceil ((total : ℚ) / (pageSize : ℚ)) := by
        exact_mod_cast hle
      omega
    · rw [Nat.ceil_le]
      have h1 := Nat.div_add_mod (total + pageSize - 1) pageSize
      have h2 := Nat.mod_lt (total + pageSize - 1) hps
      have h3 : total ≤ pageSize * ((total + pageSize - 1) / pageSize) := by omega
      rw [div_le_iff₀ hq]
      calc (total : ℚ)
          ≤ ((pageSize : ℕ) : ℚ) * (((total + pageSize - 1) / pageSize : ℕ) : ℚ) := by
            exact_mod_cast h3
        _ = (((total + pageSize - 1) / pageSize : ℕ) : ℚ) * (pageSize : ℚ) := by
            ring
  · intro h0
    rw [createTotalPages, h0]
    simp

/-- Witness for `claim9_total_pages` at `total = 41`, `page_size = 20`. -/
theorem claim9_witness :
    (0 < 41 →
      createTotalPages 41 20 = Nat.ceil ((41 : ℚ) / (20 : ℚ))) ∧
    (41 = 0 → createTotalPages 41 20 = 0) :=
  claim9_total_pages 41 20 (by decide)

/-! ## C10 -/

/-- **C10.**  On the empty payload, `bulk_update` returns a result with
empty `updated` and `errors`, leaves the session untouched, and emits no
database statement, commit, or rollback. -/
theorem claim10_empty_payload (t : Table) (workspaceId : Int) (s : Session)
    (updateFields : Option (List String)) (includeNone : Bool) :
    bulkUpdate t workspaceId s [] updateFields includeNone
      = (⟨[], []⟩, s, []) := rfl

/-! ## Lemmas: sorting, chunking, grouping -/

theorem mem_insertStr {x a : String} {l : List String} :
    a ∈ insertStr x l ↔ a = x ∨ a ∈ l := by
  induction l with
  | nil => simp [insertStr]
  | cons y ys ih =>
    rw [insertStr]
    by_cases h : x ≤ y
    · rw [if_pos h]
      simp
    · rw [if_neg h]
      simp only [List.mem_cons, ih]
      tauto

theorem mem_sortStrings {a : String} {l : List String} :
    a ∈ sortStrings l ↔ a ∈ l := by
  induction l with
  | nil => simp [sortStrings]
  | cons y ys ih =>
    simp only [sortStrings, List.foldr_cons] at ih ⊢
    rw [mem_insertStr, ih, List.mem_cons]

theorem mem_colsOf {c : String} {r : NormRow} :
    c ∈ colsOf r ↔ c ∈ writtenFields r := by
  rw [colsOf, mem_sortStrings, List.mem_dedup]

theorem colsOf_eq_nil_of_cand_nil {r : NormRow} (h : r.cand = []) :
    colsOf r = [] := by
  simp [colsOf, writtenFields, h, sortStrings]

theorem maxRowsPerBatch_pos (numColumns : Nat) : 1 ≤ maxRowsPerBatch numColumns := by
  simp only [maxRowsPerBatch]
  by_cases h : MAX_QUERY_PARAMS / numColumns = 0
  · simp [h]
  · simp only [if_neg h]
    exact Nat.one_le_iff_ne_zero.mpr h

theorem maxRowsPerBatch_bound {numColumns : Nat} (h0 : 0 < numColumns)
    (h : numColumns ≤ MAX_QUERY_PARAMS) :
    numColumns * maxRowsPerBatch numColumns ≤ MAX_QUERY_PARAMS := by
  simp only [maxRowsPerBatch]
  have hq : 1 ≤ MAX_QUERY_PARAMS / numColumns := (Nat.one_le_div_iff h0).mpr h
  rw [if_neg (by omega)]
  calc numColumns * (MAX_QUERY_PARAMS / numColumns)
      = MAX_QUERY_PARAMS / numColumns * numColumns := Nat.mul_comm _ _
    _ ≤ MAX_QUERY_PARAMS := Nat.div_mul_le_self _ _

theorem chunkList_mem_length (n : Nat) (hn : 1 ≤ n) :
    ∀ (l : List α) (c : List α), c ∈ chunkList n l → 1 ≤ c.length ∧ c.length ≤ n
  | [], c, hc => by simp [chunkList] at hc
  | x :: xs, c, hc => by
    rw [chunkList] at hc
    rcases List.mem_cons.mp hc with hEq | hTail
    · subst hEq
      refine ⟨by simp, ?_⟩
      simp only [List.length_cons, List.length_take]
      omega
    · exact chunkList_mem_length n hn (xs.drop (n - 1)) c hTail
termination_by l => l.length
decreasing_by
  simp only [List.length_cons, List.length_drop]
  omega

theorem chunkList_join (n : Nat) :
    ∀ l : List α, (chunkList n l).flatten = l
  | [] => by simp [chunkList]
  | x :: xs => by
    rw [chunkList]
    simp only [List.flatten_cons]
    rw [chunkList_join n (xs.drop (n - 1))]
    simp [List.take_append_drop]
termination_by l => l.length
decreasing_by
  simp only [List.length_cons, List.length_drop]
  omega

theorem chunkList_mem_of_mem_chunk {n : Nat} {l c : List α} {r : α}
    (hc : c ∈ chunkList n l) (hr : r ∈ c) : r ∈ l := by
  have := chunkList_join n l
  rw [← this]
  exact List.mem_flatten.mpr ⟨c, hc, hr⟩

/-- Every member row of a group carries that group's key as its column
shape. -/
def GroupsWF (gs : List (List String × List NormRow)) : Prop :=
  ∀ p ∈ gs, ∀ r ∈ p.2, colsOf r = p.1

theorem addToGroups_wf {gs : List (List String × List NormRow)}
    {k : List String} {r : NormRow} (hwf : GroupsWF gs) (hk : colsOf r = k) :
    GroupsWF (addToGroups gs k r) := by
  induction gs with
  | nil =>
    intro p hp r2 hr2
    simp only [addToGroups, List.mem_singleton] at hp
    subst hp
    simp only [List.mem_singleton] at hr2
    subst hr2
    exact hk
  | cons hd tl ih =>
    obtain ⟨k2, rs⟩ := hd
    rw [addToGroups]
    by_cases he : k2 = k
    · rw [if_pos he]
      intro p hp r2 hr2
      rcases List.mem_cons.mp hp with hEq | hTail
      · subst hEq
        rcases List.mem_append.mp hr2 with h1 | h1
        · exact hwf (k2, rs) (List.mem_cons_self _ _) r2 h1
        · simp only [List.mem_singleton] at h1
          subst h1
          rw [hk, he]
      · exact hwf p (List.mem_cons_of_mem _ hTail) r2 hr2
    · rw [if_neg he]
      intro p hp r2 hr2
      rcases List.mem_cons.mp hp with hEq | hTail
      · subst hEq
        exact hwf (k2, rs) (List.mem_cons_self _ _) r2 hr2
      · exact ih (fun q hq => hwf q (List.mem_cons_of_mem _ hq)) p hTail r2 hr2

theorem groupByColsAux_wf {gs : List (List String × List NormRow)}
    (rows : List NormRow) (hwf : GroupsWF gs) :
    GroupsWF (groupByColsAux gs rows) := by
  induction rows generalizing gs with
  | nil => exact hwf
  | cons r rest ih =>
    rw [groupByColsAux]
    by_cases h : colsOf r = []
    · rw [if_pos h]
      exact ih hwf
    · rw [if_neg h]
      exact ih (addToGroups_wf hwf rfl)

theorem groupByCols_wf (rows : List NormRow) : GroupsWF (groupByCols rows) :=
  groupByColsAux_wf rows (fun p hp => by cases hp)

/-- Group keys coming out of grouping are never the empty column set. -/
theorem addToGroups_keys {gs : List (List String × List NormRow)}
    {k : List String} {r : NormRow} (hne : ∀ p ∈ gs, p.1 ≠ [])
    (hk : k ≠ []) : ∀ p ∈ addToGroups gs k r, p.1 ≠ [] := by
  induction gs with
  | nil =>
    intro p hp
    simp only [addToGroups, List.mem_singleton] at hp
    subst hp
    exact hk
  | cons hd tl ih =>
    obtain ⟨k2, rs⟩ := hd
    rw [addToGroups]
    by_cases he : k2 = k
    · rw [if_pos he]
      intro p hp
      rcases List.mem_cons.mp hp with hEq | hTail
      · subst hEq
        exact hne (k2, rs) (List.mem_cons_self _ _)
      · exact hne p (List.mem_cons_of_mem _ hTail)
    · rw [if_neg he]
      intro p hp
      rcases List.mem_cons.mp hp with hEq | hTail
      · subst hEq
        exact hne (k2, rs) (List.mem_cons_self _ _)
      · exact ih (fun q hq => hne q (List.mem_cons_of_mem _ hq)) p hTail

theorem groupByColsAux_keys {gs : List (List String × List NormRow)}
    (rows : List NormRow) (hne : ∀ p ∈ gs, p.1 ≠ []) :
    ∀ p ∈ groupByColsAux gs rows, p.1 ≠ [] := by
  induction rows generalizing gs with
  | nil => exact hne
  | cons r rest ih =>
    rw [groupByColsAux]
    by_cases h : colsOf r = []
    · rw [if_pos h]
      exact ih hne
    · rw [if_neg h]
      exact ih (addToGroups_keys hne h)

theorem groupByCols_keys (rows : List NormRow) :
    ∀ p ∈ groupByCols rows, p.1 ≠ [] :=
  groupByColsAux_keys rows (fun p hp => by cases hp)

/-- Row `r` is present in the group keyed `k`. -/
def HasRow (gs : List (List String × List NormRow)) (k : List String)
    (r : NormRow) : Prop :=
  ∃ g, (k, g) ∈ gs ∧ r ∈ g

theorem addToGroups_hasRow_self (gs : List (List String × List NormRow))
    (k : List String) (r : NormRow) : HasRow (addToGroups gs k r) k r := by
  induction gs with
  | nil => exact ⟨[r], List.mem_singleton.mpr rfl, List.mem_singleton.mpr rfl⟩
  | cons hd tl ih =>
    obtain ⟨k2, rs⟩ := hd
    rw [addToGroups]
    by_cases he : k2 = k
    · rw [if_pos he]
      subst he
      exact ⟨rs ++ [r], (List.mem_cons_self _ _), List.mem_append_right _ (List.mem_singleton.mpr rfl)⟩
    · rw [if_neg he]
      obtain ⟨g, hg, hr⟩ := ih
      exact ⟨g, List.mem_cons_of_mem _ hg, hr⟩

theorem addToGroups_hasRow_mono {gs : List (List String × List NormRow)}
    {k : List String} {r : NormRow} (k2 : List String) (r2 : NormRow)
    (h : HasRow gs k r) : HasRow (addToGroups gs k2 r2) k r := by
  induction gs with
  | nil => obtain ⟨g, hg, _⟩ := h; cases hg
  | cons hd tl ih =>
    obtain ⟨k3, rs⟩ := hd
    obtain ⟨g, hg, hr⟩ := h
    rw [addToGroups]
    by_cases he : k3 = k2
    · rw [if_pos he]
      rcases List.mem_cons.mp hg with hEq | hTail
      · injection hEq with h1 h2
        subst h1
        subst h2
        exact ⟨g ++ [r2], (List.mem_cons_self _ _), List.mem_append_left _ hr⟩
      · exact ⟨g, List.mem_cons_of_mem _ hTail, hr⟩
    · rw [if_neg he]
      rcases List.mem_cons.mp hg with hEq | hTail
      · injection hEq with h1 h2
        subst h1
        subst h2
        exact ⟨g, (List.mem_cons_self _ _), hr⟩
      · obtain ⟨g2, hg2, hr2⟩ := ih ⟨g, hTail, hr⟩
        exact ⟨g2, List.mem_cons_of_mem _ hg2, hr2⟩

theorem groupByColsAux_hasRow_mono {gs : List (List String × List NormRow)}
    {k : List String} {r : NormRow} (rows : List NormRow)
    (h : HasRow gs k r) : HasRow (groupByColsAux gs rows) k r := by
  induction rows generalizing gs with
  | nil => exact h
  | cons r2 rest ih =>
    rw [groupByColsAux]
    by_cases h2 : colsOf r2 = []
    · rw [if_pos h2]
      exact ih h
    · rw [if_neg h2]
      exact ih (addToGroups_hasRow_mono _ _ h)

theorem groupByColsAux_hasRow {gs : List (List String × List NormRow)}
    {r : NormRow} (rows : List NormRow) (hmem : r ∈ rows)
    (hne : colsOf r ≠ []) : HasRow (groupByColsAux gs rows) (colsOf r) r := by
  induction rows generalizing gs with
  | nil => cases hmem
  | cons r2 rest ih =>
    rw [groupByColsAux]
    rcases List.mem_cons.mp hmem with hEq | hTail
    · subst hEq
      rw [if_neg hne]
      exact groupByColsAux_hasRow_mono rest (addToGroups_hasRow_self gs _ r)
    · by_cases h2 : colsOf r2 = []
      · rw [if_pos h2]
        exact ih hTail
      · rw [if_neg h2]
        exact ih hTail

theorem groupByCols_hasRow {r : NormRow} (rows : List NormRow)
    (hmem : r ∈ rows) (hne : colsOf r ≠ []) :
    HasRow (groupByCols rows) (colsOf r) r :=
  groupByColsAux_hasRow rows hmem hne

/-! ## Bulk-update fixtures -/

def exTable : Table := { hasWorkspace := true, violates := fun _ => false }

def exDb : List DbRow :=
  [⟨1, [("workspace_id", some 7), ("a", some 10)]⟩,
   ⟨2, [("workspace_id", some 8), ("a", some 20)]⟩]

def exSession : Session := ⟨exDb, exDb⟩

def exN1 : NormRow := ⟨1, [("a", some 1)]⟩

def exN2 : NormRow := ⟨2, [("b", some 2)]⟩

def exEmptyItem : UpdateItem := ⟨5, [("a", none)]⟩

/-! ## C5 -/

/-- **C5.**  Chunk sizing: for a batch group with `cols` update columns,
the chunk size `_MAX_QUERY_PARAMS // (1 + len(cols)) or 1` is at least 1
(even when a single row's parameter count alone exceeds the ceiling),
and whenever a single row fits the ceiling, every produced chunk keeps
`(1 + numFieldsInGroup) × chunkSize ≤ 20000`. -/
theorem claim5_chunk_parameter_bound (cols : List String) (rows : List NormRow) :
    1 ≤ maxRowsPerBatch (1 + cols.length) ∧
    (∀ c ∈ chunkList (maxRowsPerBatch (1 + cols.length)) rows, 1 ≤ c.length) ∧
    (1 + cols.length ≤ MAX_QUERY_PARAMS →
      ∀ c ∈ chunkList (maxRowsPerBatch (1 + cols.length)) rows,
        (1 + cols.length) * c.length ≤ MAX_QUERY_PARAMS) := by
  refine ⟨maxRowsPerBatch_pos _, ?_, ?_⟩
  · intro c hc
    exact (chunkList_mem_length _ (maxRowsPerBatch_pos _) rows c hc).1
  · intro hle c hc
    have h2 := (chunkList_mem_length _ (maxRowsPerBatch_pos _) rows c hc).2
    have h3 := maxRowsPerBatch_bound (by omega) hle
    calc (1 + cols.length) * c.length
        ≤ (1 + cols.length) * maxRowsPerBatch (1 + cols.length) :=
          Nat.mul_le_mul_left _ h2
      _ ≤ MAX_QUERY_PARAMS := h3

/-- Witness for `claim5_chunk_parameter_bound` at a two-column group. -/
theorem claim5_witness :
    1 ≤ maxRowsPerBatch (1 + (["a", "b"] : List String).length) ∧
    (∀ c ∈ chunkList (maxRowsPerBatch (1 + (["a", "b"] : List String).length))
        [exN1, exN2], 1 ≤ c.length) ∧
    (∀ c ∈ chunkList (maxRowsPerBatch (1 + (["a", "b"] : List String).length))
        [exN1, exN2],
      (1 + (["a", "b"] : List String).length) * c.length ≤ MAX_QUERY_PARAMS) :=
  ⟨(claim5_chunk_parameter_bound ["a", "b"] [exN1, exN2]).1,
   (claim5_chunk_parameter_bound ["a", "b"] [exN1, exN2]).2.1,
   (claim5_chunk_parameter_bound ["a", "b"] [exN1, exN2]).2.2 (by decide)⟩

/-! ## C6 -/

/-- **C6.**  Grouping is by the exact set of written field names: every
row of a group (and of every chunk cut from it, i.e. every generated
statement) has the group's column shape; any two rows of one group write
the same field set; rows with different written field sets never share a
group; and every nonempty-shape row lands in the group keyed by its own
column set. -/
theorem claim6_grouping (rows : List NormRow) :
    (∀ k g, (k, g) ∈ groupByCols rows → ∀ r ∈ g, colsOf r = k) ∧
    (∀ k g r1 r2 c, (k, g) ∈ groupByCols rows → r1 ∈ g → r2 ∈ g →
      (c ∈ writtenFields r1 ↔ c ∈ writtenFields r2)) ∧
    (∀ k1 g1 k2 g2 r1 r2, (k1, g1) ∈ groupByCols rows →
      (k2, g2) ∈ groupByCols rows → r1 ∈ g1 → r2 ∈ g2 →
      ¬ (∀ c, c ∈ writtenFields r1 ↔ c ∈ writtenFields r2) → k1 ≠ k2) ∧
    (∀ r ∈ rows, colsOf r ≠ [] →
      ∃ g, (colsOf r, g) ∈ groupByCols rows ∧ r ∈ g) ∧
    (∀ k g n c r, (k, g) ∈ groupByCols rows →
      c ∈ chunkList (maxRowsPerBatch n) g → r ∈ c → colsOf r = k) := by
  refine ⟨?_, ?_, ?_, ?_, ?_⟩
  · exact fun k g hg r hr => groupByCols_wf rows (k, g) hg r hr
  · intro k g r1 r2 c hg h1 h2
    have e1 := groupByCols_wf rows (k, g) hg r1 h1
    have e2 := groupByCols_wf rows (k, g) hg r2 h2
    rw [← mem_colsOf, ← mem_colsOf, e1, e2]
  · intro k1 g1 k2 g2 r1 r2 hg1 hg2 hr1 hr2 hne heq
    apply hne
    intro c
    have e1 := groupByCols_wf rows (k1, g1) hg1 r1 hr1
    have e2 := groupByCols_wf rows (k2, g2) hg2 r2 hr2
    rw [← mem_colsOf, ← mem_colsOf, e1, e2, heq]
  · exact fun r hr hne => groupByCols_hasRow rows hr hne
  · intro k g n c r hg hc hr
    exact groupByCols_wf rows (k, g) hg r (chunkList_mem_of_mem_chunk hc hr)

/-- Witness for `claim6_grouping`: two rows with shapes `{a}` and `{b}`
land under distinct keys. -/
theorem claim6_witness :
    colsOf exN1 = ["a"] ∧ (["a"] : List String) ≠ ["b"] := by
  have h := claim6_grouping [exN1, exN2]
  refine ⟨?_, ?_⟩
  · exact h.1 ["a"] [exN1] (by decide) exN1 (by decide)
  · exact h.2.2.1 ["a"] [exN1] ["b"] [exN2] exN1 exN2
      (by decide) (by decide) (by decide) (by decide)
      (fun hAll => absurd ((hAll "a").mp (by decide)) (by decide))

/-! ## C7 -/

/-- **C7.**  A payload row whose effective field set after
null-filtering is empty is reported in `errors` as
`"no fields to update"` and belongs to no batch group — it never reaches
the database. -/
theorem claim7_empty_update_rows (t : Table) (workspaceId : Int) (s : Session)
    (payload : List UpdateItem) (updateFields : Option (List String))
    (includeNone : Bool) (item : UpdateItem)
    (hmem : item ∈ payload)
    (hempty : (normalizeItem updateFields includeNone item).cand = []) :
    (⟨item.id, noFieldsMsg⟩ : ErrEntry)
      ∈ (bulkUpdate t workspaceId s payload updateFields includeNone).1.errors ∧
    (∀ k g,
      (k, g) ∈ groupByCols (payload.map (normalizeItem updateFields includeNone)) →
      normalizeItem updateFields includeNone item ∉ g) := by
  constructor
  · have hpe : ¬ (payload.isEmpty = true) := by
      cases payload
      · cases hmem
      · simp [List.isEmpty]
    rw [bulkUpdate, if_neg hpe]
    apply List.mem_append_right
    apply List.mem_filterMap.mpr
    refine ⟨normalizeItem updateFields includeNone item,
      List.mem_map_of_mem _ hmem, ?_⟩
    rw [hempty]
    rfl
  · intro k g hg hmemg
    have hcols := groupByCols_wf _ (k, g) hg _ hmemg
    have hkeys := groupByCols_keys _ (k, g) hg
    apply hkeys
    rw [← hcols]
    exact colsOf_eq_nil_of_cand_nil hempty

/-- Witness for `claim7_empty_update_rows`: an all-null row under the
default null policy. -/
theorem claim7_witness :
    (⟨exEmptyItem.id, noFieldsMsg⟩ : ErrEntry)
      ∈ (bulkUpdate exTable 7 exSession [exEmptyItem] none false).1.errors ∧
    (∀ k g, (k, g) ∈ groupByCols ([exEmptyItem].map (normalizeItem none false)) →
      normalizeItem none false exEmptyItem ∉ g) :=
  claim7_empty_update_rows exTable 7 exSession [exEmptyItem] none false
    exEmptyItem (List.mem_singleton.mpr rfl) (by decide)

/-! ## Lemmas: row-by-row fallback -/

theorem applyRow_id (cols : List String) (d : NormRow) (r : DbRow) :
    (applyRow cols d r).id = r.id := rfl

/-- The matched rows of one single-row statement all carry that row's
id. -/
theorem singleRowTouched_id (t : Table) (workspaceId : Int)
    (cols : List String) (row : NormRow) :
    ∀ (pending : List DbRow) (outRow : DbRow),
      outRow ∈ pending.filterMap (singleTouchFn t workspaceId cols row) →
      outRow.id = row.id := by
  intro pending
  induction pending with
  | nil => intro outRow h; cases h
  | cons r rest ih =>
    intro outRow h
    rw [List.filterMap_cons] at h
    simp only [singleTouchFn] at h
    by_cases hcond : (r.id == row.id && wsOk t workspaceId r) = true
    · rw [if_pos hcond] at h
      rcases List.mem_cons.mp h with hEq | hTail
      · subst hEq
        rw [applyRow_id]
        exact eq_of_beq ((Bool.and_eq_true _ _).mp hcond).1
      · exact ih outRow hTail
    · rw [if_neg hcond] at h
      exact ih outRow h

/-- Every row the fallback processes contributes exactly one outcome, in
order: the `updated` and `errors` lists together account for the whole
chunk, each entry carrying its row's id. -/
theorem fallback_outcomes (t : Table) (workspaceId : Int) (cols : List String) :
    ∀ (rows : List NormRow) (s : Session),
      (fallbackRowByRow t workspaceId cols s rows).1.length +
        (fallbackRowByRow t workspaceId cols s rows).2.1.length = rows.length ∧
      ∀ row ∈ rows,
        row.id ∈ (fallbackRowByRow t workspaceId cols s rows).1.map RetRow.id ∨
        row.id ∈ (fallbackRowByRow t workspaceId cols s rows).2.1.map ErrEntry.id
  | [], s => by simp [fallbackRowByRow]
  | row :: rest, s => by
    rw [fallbackRowByRow]
    by_cases hviol :
        ((s.pending.filterMap (singleTouchFn t workspaceId cols row)).any
          t.violates) = true
    · simp only [hviol, if_true]
      obtain ⟨hlen, hmem⟩ := fallback_outcomes t workspaceId cols rest (rollbackS s)
      constructor
      · simp only [List.length_cons]
        omega
      · intro r2 hr2
        rcases List.mem_cons.mp hr2 with hEq | hTail
        · subst hEq
          right
          simp
        · rcases hmem r2 hTail with h | h
          · left; exact h
          · right
            simp only [List.map_cons, List.mem_cons]
            exact Or.inr h
    · simp only [hviol, if_false, Bool.false_eq_true]
      rcases hhd :
          (s.pending.filterMap (singleTouchFn t workspaceId cols row)).head?
          with _ | outRow
      · dsimp only
        obtain ⟨hlen, hmem⟩ := fallback_outcomes t workspaceId cols rest
          ⟨s.committed, s.pending.map (singleUpdFn t workspaceId cols row)⟩
        constructor
        · simp only [List.length_cons]
          omega
        · intro r2 hr2
          rcases List.mem_cons.mp hr2 with hEq | hTail
          · subst hEq
            right
            simp
          · rcases hmem r2 hTail with h | h
            · left; exact h
            · right
              simp only [List.map_cons, List.mem_cons]
              exact Or.inr h
      · dsimp only
        obtain ⟨hlen, hmem⟩ := fallback_outcomes t workspaceId cols rest
          (commitS ⟨s.committed, s.pending.map (singleUpdFn t workspaceId cols row)⟩)
        constructor
        · simp only [List.length_cons]
          omega
        · intro r2 hr2
          rcases List.mem_cons.mp hr2 with hEq | hTail
          · subst hEq
            left
            have hid : outRow.id = r2.id :=
              singleRowTouched_id t workspaceId cols r2 s.pending outRow
                (List.mem_of_mem_head? (by rw [hhd]; exact rfl))
            simp only [List.map_cons, List.mem_cons]
            left
            simp only [retOf]
            exact hid.symm
          · rcases hmem r2 hTail with h | h
            · left
              simp only [List.map_cons, List.mem_cons]
              exact Or.inr h
            · right; exact h

/-! ## C2 -/

/-- **C2.**  If a chunk's set-based statement raises a data-integrity
violation, the chunk is rolled back and retried row by row with the same
tenant predicate and column list; every chunk row yields exactly one
outcome (updated entry or error entry — the loop never aborts); a
per-row violation is recorded as that row's error, rolled back, and the
remaining rows keep being processed; and a successful row's statement is
committed individually before the next row runs.  The call as a whole
still produces a `BulkUpdateResult` (the model's `bulkUpdate` is a total
function). -/
theorem claim2_constraint_fallback (t : Table) (workspaceId : Int) (s : Session)
    (batch : List NormRow) (cols : List String)
    (hfail : executeBatchUpdate t workspaceId s.pending batch cols = .error ()) :
    processChunk t workspaceId s batch cols =
      ((fallbackRowByRow t workspaceId cols (rollbackS s) batch).1,
       (fallbackRowByRow t workspaceId cols (rollbackS s) batch).2.1,
       (fallbackRowByRow t workspaceId cols (rollbackS s) batch).2.2.1,
       DbEvent.execBatch :: DbEvent.rollback ::
         (fallbackRowByRow t workspaceId cols (rollbackS s) batch).2.2.2) ∧
    ((fallbackRowByRow t workspaceId cols (rollbackS s) batch).1.length +
       (fallbackRowByRow t workspaceId cols (rollbackS s) batch).2.1.length
       = batch.length) ∧
    (∀ row ∈ batch,
      row.id ∈
        (fallbackRowByRow t workspaceId cols (rollbackS s) batch).1.map RetRow.id ∨
      row.id ∈
        (fallbackRowByRow t workspaceId cols (rollbackS s) batch).2.1.map ErrEntry.id) ∧
    (∀ (s2 : Session) (row : NormRow) (rest : List NormRow),
      ((s2.pending.filterMap (singleTouchFn t workspaceId cols row)).any
        t.violates) = true →
      fallbackRowByRow t workspaceId cols s2 (row :: rest) =
        ((fallbackRowByRow t workspaceId cols (rollbackS s2) rest).1,
         ⟨row.id, integrityMsg⟩ ::
           (fallbackRowByRow t workspaceId cols (rollbackS s2) rest).2.1,
         (fallbackRowByRow t workspaceId cols (rollbackS s2) rest).2.2.1,
         DbEvent.execRow :: DbEvent.rollback ::
           (fallbackRowByRow t workspaceId cols (rollbackS s2) rest).2.2.2)) ∧
    (∀ (s2 : Session) (row : NormRow) (rest : List NormRow) (outRow : DbRow),
      ((s2.pending.filterMap (singleTouchFn t workspaceId cols row)).any
        t.violates) = false →
      (s2.pending.filterMap (singleTouchFn t workspaceId cols row)).head?
        = some outRow →
      fallbackRowByRow t workspaceId cols s2 (row :: rest) =
        (retOf cols outRow ::
           (fallbackRowByRow t workspaceId cols
             (commitS ⟨s2.committed,
               s2.pending.map (singleUpdFn t workspaceId cols row)⟩) rest).1,
         (fallbackRowByRow t workspaceId cols
           (commitS ⟨s2.committed,
             s2.pending.map (singleUpdFn t workspaceId cols row)⟩) rest).2.1,
         (fallbackRowByRow t workspaceId cols
           (commitS ⟨s2.committed,
             s2.pending.map (singleUpdFn t workspaceId cols row)⟩) rest).2.2.1,
         DbEvent.execRow :: DbEvent.commit ::
           (fallbackRowByRow t workspaceId cols
             (commitS ⟨s2.committed,
               s2.pending.map (singleUpdFn t workspaceId cols row)⟩) rest).2.2.2)) := by
  refine ⟨?_, (fallback_outcomes t workspaceId cols batch (rollbackS s)).1,
    (fallback_outcomes t workspaceId cols batch (rollbackS s)).2, ?_, ?_⟩
  · simp only [processChunk, hfail]
  · intro s2 row rest hv
    rw [fallbackRowByRow]
    simp only [hv, if_true]
  · intro s2 row rest outRow hnv hhd
    rw [fallbackRowByRow]
    simp only [hnv, Bool.false_eq_true, if_false, hhd]

/-- A table whose constraint rejects writing `a = 200`. -/
def exViolTable : Table :=
  { hasWorkspace := true, violates := fun r => getField r "a" == some 200 }

def exDb7 : List DbRow :=
  [⟨1, [("workspace_id", some 7), ("a", some 10)]⟩,
   ⟨2, [("workspace_id", some 7), ("a", some 20)]⟩]

def exSession7 : Session := ⟨exDb7, exDb7⟩

/-- Witness for `claim2_constraint_fallback`: a two-row chunk whose
second row violates the constraint — the batch statement fails, the
chunk is rolled back, and the fallback handles the rows one by one. -/
theorem claim2_witness :
    processChunk exViolTable 7 exSession7
        [⟨1, [("a", some 100)]⟩, ⟨2, [("a", some 200)]⟩] ["a"] =
      ((fallbackRowByRow exViolTable 7 ["a"] (rollbackS exSession7)
          [⟨1, [("a", some 100)]⟩, ⟨2, [("a", some 200)]⟩]).1,
       (fallbackRowByRow exViolTable 7 ["a"] (rollbackS exSession7)
          [⟨1, [("a", some 100)]⟩, ⟨2, [("a", some 200)]⟩]).2.1,
       (fallbackRowByRow exViolTable 7 ["a"] (rollbackS exSession7)
          [⟨1, [("a", some 100)]⟩, ⟨2, [("a", some 200)]⟩]).2.2.1,
       DbEvent.execBatch :: DbEvent.rollback ::
         (fallbackRowByRow exViolTable 7 ["a"] (rollbackS exSession7)
            [⟨1, [("a", some 100)]⟩, ⟨2, [("a", some 200)]⟩]).2.2.2) ∧
    ((fallbackRowByRow exViolTable 7 ["a"] (rollbackS exSession7)
        [⟨1, [("a", some 100)]⟩, ⟨2, [("a", some 200)]⟩]).1.length +
      (fallbackRowByRow exViolTable 7 ["a"] (rollbackS exSession7)
        [⟨1, [("a", some 100)]⟩, ⟨2, [("a", some 200)]⟩]).2.1.length
      = ([⟨1, [("a", some 100)]⟩, ⟨2, [("a", some 200)]⟩] : List NormRow).length) :=
  ⟨(claim2_constraint_fallback exViolTable 7 exSession7
      [⟨1, [("a", some 100)]⟩, ⟨2, [("a", some 200)]⟩] ["a"] rfl).1,
   (claim2_constraint_fallback exViolTable 7 exSession7
      [⟨1, [("a", some 100)]⟩, ⟨2, [("a", some 200)]⟩] ["a"] rfl).2.1⟩

/-! ## Lemmas: tenant-isolation simulation

A row `bad` whose workspace predicate fails is invisible to every
statement of a bulk-update call: running the call on a database with
`bad` present and on the same database with `bad` removed produces the
same response. -/

theorem batchTouchFn_bad {t : Table} {workspaceId : Int} {bad : DbRow}
    (hbad : wsOk t workspaceId bad = false) (batch : List NormRow)
    (cols : List String) : batchTouchFn t workspaceId batch cols bad = none := by
  rw [batchTouchFn]
  cases hf : batch.find? (fun d => d.id == bad.id) with
  | none => rfl
  | some d => simp [hbad]

theorem batchUpdFn_bad {t : Table} {workspaceId : Int} {bad : DbRow}
    (hbad : wsOk t workspaceId bad = false) (batch : List NormRow)
    (cols : List String) : batchUpdFn t workspaceId batch cols bad = bad := by
  rw [batchUpdFn]
  cases hf : batch.find? (fun d => d.id == bad.id) with
  | none => rfl
  | some d => simp [hbad]

theorem singleTouchFn_bad {t : Table} {workspaceId : Int} {bad : DbRow}
    (hbad : wsOk t workspaceId bad = false) (cols : List String)
    (row : NormRow) : singleTouchFn t workspaceId cols row bad = none := by
  simp [singleTouchFn, hbad]

theorem singleUpdFn_bad {t : Table} {workspaceId : Int} {bad : DbRow}
    (hbad : wsOk t workspaceId bad = false) (cols : List String)
    (row : NormRow) : singleUpdFn t workspaceId cols row bad = bad := by
  simp [singleUpdFn, hbad]

theorem executeBatchUpdate_sim {t : Table} {workspaceId : Int} {bad : DbRow}
    (hbad : wsOk t workspaceId bad = false)
    (p q : List DbRow) (batch : List NormRow) (cols : List String) :
    (executeBatchUpdate t workspaceId (p ++ bad :: q) batch cols = .error () ↔
      executeBatchUpdate t workspaceId (p ++ q) batch cols = .error ()) ∧
    (∀ db2 rets miss,
      executeBatchUpdate t workspaceId (p ++ q) batch cols = .ok (db2, rets, miss) →
      executeBatchUpdate t workspaceId (p ++ bad :: q) batch cols =
        .ok (p.map (batchUpdFn t workspaceId batch cols) ++ bad ::
              q.map (batchUpdFn t workspaceId batch cols), rets, miss) ∧
      db2 = p.map (batchUpdFn t workspaceId batch cols) ++
              q.map (batchUpdFn t workspaceId batch cols)) := by
  have htch : (p ++ bad :: q).filterMap (batchTouchFn t workspaceId batch cols)
      = (p ++ q).filterMap (batchTouchFn t workspaceId batch cols) := by
    simp [List.filterMap_append, List.filterMap_cons, batchTouchFn_bad hbad]
  constructor
  · by_cases hv : (((p ++ q).filterMap
        (batchTouchFn t workspaceId batch cols)).any t.violates) = true <;>
      simp [executeBatchUpdate, htch, hv]
  · intro db2 rets miss hok
    by_cases hv : (((p ++ q).filterMap
        (batchTouchFn t workspaceId batch cols)).any t.violates) = true
    · have herr : executeBatchUpdate t workspaceId (p ++ q) batch cols
          = .error () := by
        simp only [executeBatchUpdate, hv, eq_self_iff_true, if_true]
      rw [herr] at hok
      simp at hok
    · simp only [executeBatchUpdate, htch, hv, Bool.false_eq_true, if_false,
        Except.ok.injEq, Prod.mk.injEq] at hok ⊢
      obtain ⟨h1, h2, h3⟩ := hok
      refine ⟨⟨?_, h2, h3⟩, ?_⟩
      · simp [List.map_append, batchUpdFn_bad hbad]
      · rw [← h1]
        simp [List.map_append]

/-- Session `s` is session `s'` with the invisible row `bad` inserted at
one position of both the committed and the pending state. -/
def SessionSim (bad : DbRow) (s s' : Session) : Prop :=
  (∃ cp cq, s.committed = cp ++ bad :: cq ∧ s'.committed = cp ++ cq) ∧
  (∃ pp pq, s.pending = pp ++ bad :: pq ∧ s'.pending = pp ++ pq)

theorem fallback_sim {t : Table} {workspaceId : Int} {bad : DbRow}
    (hbad : wsOk t workspaceId bad = false) (cols : List String) :
    ∀ (rows : List NormRow) (s s' : Session), SessionSim bad s s' →
      (fallbackRowByRow t workspaceId cols s rows).1
        = (fallbackRowByRow t workspaceId cols s' rows).1 ∧
      (fallbackRowByRow t workspaceId cols s rows).2.1
        = (fallbackRowByRow t workspaceId cols s' rows).2.1 ∧
      (fallbackRowByRow t workspaceId cols s rows).2.2.2
        = (fallbackRowByRow t workspaceId cols s' rows).2.2.2 ∧
      SessionSim bad (fallbackRowByRow t workspaceId cols s rows).2.2.1
        (fallbackRowByRow t workspaceId cols s' rows).2.2.1
  | [], s, s', hsim => by
    exact ⟨rfl, rfl, rfl, hsim⟩
  | row :: rest, s, s', hsim => by
    obtain ⟨⟨cp, cq, hc, hc'⟩, ⟨pp, pq, hp, hp'⟩⟩ := hsim
    have htch : s.pending.filterMap (singleTouchFn t workspaceId cols row)
        = s'.pending.filterMap (singleTouchFn t workspaceId cols row) := by
      rw [hp, hp']
      simp [List.filterMap_append, List.filterMap_cons, singleTouchFn_bad hbad]
    have hnp : s.pending.map (singleUpdFn t workspaceId cols row)
        = pp.map (singleUpdFn t workspaceId cols row) ++ bad ::
            pq.map (singleUpdFn t workspaceId cols row) := by
      rw [hp]
      simp [List.map_append, singleUpdFn_bad hbad]
    have hnp' : s'.pending.map (singleUpdFn t workspaceId cols row)
        = pp.map (singleUpdFn t workspaceId cols row) ++
            pq.map (singleUpdFn t workspaceId cols row) := by
      rw [hp']
      simp [List.map_append]
    rw [fallbackRowByRow, fallbackRowByRow, htch]
    by_cases hv : ((s'.pending.filterMap
        (singleTouchFn t workspaceId cols row)).any t.violates) = true
    · simp only [hv, if_true]
      obtain ⟨ih1, ih2, ih3, ih4⟩ := fallback_sim hbad cols rest
        (rollbackS s) (rollbackS s')
        ⟨⟨cp, cq, hc, hc'⟩, ⟨cp, cq, hc, hc'⟩⟩
      exact ⟨ih1, by rw [ih2], by rw [ih3], ih4⟩
    · simp only [hv, Bool.false_eq_true, if_false]
      rcases hhd : (s'.pending.filterMap
          (singleTouchFn t workspaceId cols row)).head? with _ | outRow
      · dsimp only
        obtain ⟨ih1, ih2, ih3, ih4⟩ := fallback_sim hbad cols rest
          ⟨s.committed, s.pending.map (singleUpdFn t workspaceId cols row)⟩
          ⟨s'.committed, s'.pending.map (singleUpdFn t workspaceId cols row)⟩
          ⟨⟨cp, cq, hc, hc'⟩,
           ⟨pp.map (singleUpdFn t workspaceId cols row),
            pq.map (singleUpdFn t workspaceId cols row), hnp, hnp'⟩⟩
        exact ⟨ih1, by rw [ih2], by rw [ih3], ih4⟩
      · dsimp only
        obtain ⟨ih1, ih2, ih3, ih4⟩ := fallback_sim hbad cols rest
          (commitS ⟨s.committed, s.pending.map (singleUpdFn t workspaceId cols row)⟩)
          (commitS ⟨s'.committed, s'.pending.map (singleUpdFn t workspaceId cols row)⟩)
          ⟨⟨pp.map (singleUpdFn t workspaceId cols row),
            pq.map (singleUpdFn t workspaceId cols row), hnp, hnp'⟩,
           ⟨pp.map (singleUpdFn t workspaceId cols row),
            pq.map (singleUpdFn t workspaceId cols row), hnp, hnp'⟩⟩
        exact ⟨by rw [ih1], ih2, by rw [ih3], ih4⟩

theorem processChunk_sim {t : Table} {workspaceId : Int} {bad : DbRow}
    (hbad : wsOk t workspaceId bad = false) (s s' : Session)
    (batch : List NormRow) (cols : List String) (hsim : SessionSim bad s s') :
    (processChunk t workspaceId s batch cols).1
      = (processChunk t workspaceId s' batch cols).1 ∧
    (processChunk t workspaceId s batch cols).2.1
      = (processChunk t workspaceId s' batch cols).2.1 ∧
    (processChunk t workspaceId s batch cols).2.2.2
      = (processChunk t workspaceId s' batch cols).2.2.2 ∧
    SessionSim bad (processChunk t workspaceId s batch cols).2.2.1
      (processChunk t workspaceId s' batch cols).2.2.1 := by
  obtain ⟨⟨cp, cq, hc, hc'⟩, ⟨pp, pq, hp, hp'⟩⟩ := hsim
  cases hE : executeBatchUpdate t workspaceId (s'.pending) batch cols with
  | error e =>
    cases e
    have hE1 : executeBatchUpdate t workspaceId (s.pending) batch cols
        = .error () := by
      rw [hp]
      apply ((executeBatchUpdate_sim hbad pp pq batch cols).1).mpr
      rw [← hp']
      exact hE
    simp only [processChunk, hE, hE1]
    obtain ⟨ih1, ih2, ih3, ih4⟩ := fallback_sim hbad cols batch
      (rollbackS s) (rollbackS s') ⟨⟨cp, cq, hc, hc'⟩, ⟨cp, cq, hc, hc'⟩⟩
    exact ⟨ih1, ih2, by rw [ih3], ih4⟩
  | ok out =>
    obtain ⟨db2, rets, miss⟩ := out
    have hE2 : executeBatchUpdate t workspaceId (pp ++ pq) batch cols
        = .ok (db2, rets, miss) := by
      rw [← hp']
      exact hE
    obtain ⟨hLok, hdb2⟩ := (executeBatchUpdate_sim hbad pp pq batch cols).2
      db2 rets miss hE2
    have hE1 : executeBatchUpdate t workspaceId (s.pending) batch cols
        = .ok (pp.map (batchUpdFn t workspaceId batch cols) ++ bad ::
              pq.map (batchUpdFn t workspaceId batch cols), rets, miss) := by
      rw [hp]
      exact hLok
    subst hdb2
    refine ⟨?_, ?_, ?_, ?_⟩
    · simp only [processChunk, hE, hE1]
    · simp only [processChunk, hE, hE1]
    · simp only [processChunk, hE, hE1]
    · simp only [processChunk, hE, hE1, commitS]
      unfold SessionSim
      exact ⟨⟨pp.map (batchUpdFn t workspaceId batch cols),
          pq.map (batchUpdFn t workspaceId batch cols), rfl, rfl⟩,
        ⟨pp.map (batchUpdFn t workspaceId batch cols),
          pq.map (batchUpdFn t workspaceId batch cols), rfl, rfl⟩⟩

theorem processChunks_sim {t : Table} {workspaceId : Int} {bad : DbRow}
    (hbad : wsOk t workspaceId bad = false) (cols : List String) :
    ∀ (chunks : List (List NormRow)) (s s' : Session), SessionSim bad s s' →
      (processChunks t workspaceId cols s chunks).1
        = (processChunks t workspaceId cols s' chunks).1 ∧
      (processChunks t workspaceId cols s chunks).2.1
        = (processChunks t workspaceId cols s' chunks).2.1 ∧
      (processChunks t workspaceId cols s chunks).2.2.2
        = (processChunks t workspaceId cols s' chunks).2.2.2 ∧
      SessionSim bad (processChunks t workspaceId cols s chunks).2.2.1
        (processChunks t workspaceId cols s' chunks).2.2.1
  | [], s, s', hsim => ⟨rfl, rfl, rfl, hsim⟩
  | batch :: rest, s, s', hsim => by
    rw [processChunks, processChunks]
    by_cases hb : batch.isEmpty = true
    · simp only [hb, if_true]
      exact processChunks_sim hbad cols rest s s' hsim
    · simp only [hb, Bool.false_eq_true, if_false]
      obtain ⟨h1, h2, h3, h4⟩ := processChunk_sim hbad s s' batch cols hsim
      obtain ⟨ih1, ih2, ih3, ih4⟩ := processChunks_sim hbad cols rest
        (processChunk t workspaceId s batch cols).2.2.1
        (processChunk t workspaceId s' batch cols).2.2.1 h4
      exact ⟨by rw [h1, ih1], by rw [h2, ih2], by rw [h3, ih3], ih4⟩

theorem processGroups_sim {t : Table} {workspaceId : Int} {bad : DbRow}
    (hbad : wsOk t workspaceId bad = false) :
    ∀ (groups : List (List String × List NormRow)) (s s' : Session),
      SessionSim bad s s' →
      (processGroups t workspaceId s groups).1
        = (processGroups t workspaceId s' groups).1 ∧
      (processGroups t workspaceId s groups).2.1
        = (processGroups t workspaceId s' groups).2.1 ∧
      (processGroups t workspaceId s groups).2.2.2
        = (processGroups t workspaceId s' groups).2.2.2 ∧
      SessionSim bad (processGroups t workspaceId s groups).2.2.1
        (processGroups t workspaceId s' groups).2.2.1
  | [], s, s', hsim => ⟨rfl, rfl, rfl, hsim⟩
  | (colsKey, rows) :: rest, s, s', hsim => by
    rw [processGroups, processGroups]
    obtain ⟨h1, h2, h3, h4⟩ := processChunks_sim hbad colsKey
      (chunkList (maxRowsPerBatch (1 + colsKey.length)) rows) s s' hsim
    obtain ⟨ih1, ih2, ih3, ih4⟩ := processGroups_sim hbad rest
      (processChunks t workspaceId colsKey s
        (chunkList (maxRowsPerBatch (1 + colsKey.length)) rows)).2.2.1
      (processChunks t workspaceId colsKey s'
        (chunkList (maxRowsPerBatch (1 + colsKey.length)) rows)).2.2.1 h4
    exact ⟨by rw [h1, ih1], by rw [h2, ih2], by rw [h3, ih3], ih4⟩

/-! ## Lemmas: unmatchable ids are reported as missing rows

`NoMatch t ws i db` says no row of `db` with id `i` passes the workspace
predicate — either no such row exists, or every such row belongs to a
different tenant.  Such an id can never be updated, and every batch that
carries it reports it with `rowNotFoundMsg`. -/

def NoMatch (t : Table) (workspaceId : Int) (i : Int) (db : List DbRow) : Prop :=
  ∀ r ∈ db, r.id = i → wsOk t workspaceId r = false

theorem batchUpdFn_id (t : Table) (workspaceId : Int) (batch : List NormRow)
    (cols : List String) (r : DbRow) :
    (batchUpdFn t workspaceId batch cols r).id = r.id := by
  rw [batchUpdFn]
  rcases hf : batch.find? (fun d => d.id == r.id) with _ | d
  · rw [hf]
  · rw [hf]
    dsimp only
    by_cases hw : wsOk t workspaceId r = true
    · rw [if_pos hw]
      rfl
    · rw [if_neg hw]

theorem singleUpdFn_id (t : Table) (workspaceId : Int) (cols : List String)
    (row : NormRow) (r : DbRow) :
    (singleUpdFn t workspaceId cols row r).id = r.id := by
  rw [singleUpdFn]
  by_cases hw : (r.id == row.id && wsOk t workspaceId r) = true
  · rw [if_pos hw]
    rfl
  · rw [if_neg hw]

theorem noMatch_map_batch {t : Table} {workspaceId : Int} {i : Int}
    {db : List DbRow} (batch : List NormRow) (cols : List String)
    (h : NoMatch t workspaceId i db) :
    NoMatch t workspaceId i (db.map (batchUpdFn t workspaceId batch cols)) := by
  intro r2 hr2 hid
  obtain ⟨r, hr, hmap⟩ := List.mem_map.mp hr2
  subst hmap
  rw [batchUpdFn_id] at hid
  have hw := h r hr hid
  rw [batchUpdFn]
  rcases hf : batch.find? (fun d => d.id == r.id) with _ | d
  · rw [hf]
    exact hw
  · rw [hf]
    dsimp only
    rw [hw]
    simp only [Bool.false_eq_true, if_false]
    exact hw

theorem noMatch_map_single {t : Table} {workspaceId : Int} {i : Int}
    {db : List DbRow} (cols : List String) (row : NormRow)
    (h : NoMatch t workspaceId i db) :
    NoMatch t workspaceId i (db.map (singleUpdFn t workspaceId cols row)) := by
  intro r2 hr2 hid
  obtain ⟨r, hr, hmap⟩ := List.mem_map.mp hr2
  subst hmap
  rw [singleUpdFn_id] at hid
  have hw := h r hr hid
  rw [singleUpdFn, hw, Bool.and_false]
  simp only [Bool.false_eq_true, if_false]
  exact hw

theorem batchTouched_id_ne {t : Table} {workspaceId : Int} {i : Int}
    {db : List DbRow} {batch : List NormRow} {cols : List String}
    (h : NoMatch t workspaceId i db) :
    ∀ r2 ∈ db.filterMap (batchTouchFn t workspaceId batch cols), r2.id ≠ i := by
  intro r2 hr2 hid
  obtain ⟨r, hr, hfr⟩ := List.mem_filterMap.mp hr2
  rw [batchTouchFn] at hfr
  rcases hf : batch.find? (fun d => d.id == r.id) with _ | d <;> rw [hf] at hfr
  · cases hfr
  · dsimp only at hfr
    by_cases hw : wsOk t workspaceId r = true
    · rw [if_pos hw] at hfr
      injection hfr with he
      subst he
      rw [applyRow_id] at hid
      rw [h r hr hid] at hw
      cases hw
    · rw [if_neg hw] at hfr
      cases hfr

theorem singleTouched_id_ne {t : Table} {workspaceId : Int} {i : Int}
    {db : List DbRow} {cols : List String} {row : NormRow}
    (h : NoMatch t workspaceId i db) :
    ∀ r2 ∈ db.filterMap (singleTouchFn t workspaceId cols row), r2.id ≠ i := by
  intro r2 hr2 hid
  obtain ⟨r, hr, hfr⟩ := List.mem_filterMap.mp hr2
  rw [singleTouchFn] at hfr
  by_cases hw : (r.id == row.id && wsOk t workspaceId r) = true
  · rw [if_pos hw] at hfr
    injection hfr with he
    subst he
    rw [applyRow_id] at hid
    rw [h r hr hid, Bool.and_false] at hw
    cases hw
  · rw [if_neg hw] at hfr
    cases hfr

/-- A single-row statement for an unmatchable id touches nothing. -/
theorem singleTouched_nil {t : Table} {workspaceId : Int} {i : Int}
    {db : List DbRow} {cols : List String} {row : NormRow}
    (h : NoMatch t workspaceId i db) (hrow : row.id = i) :
    db.filterMap (singleTouchFn t workspaceId cols row) = [] := by
  rw [List.filterMap_eq_nil_iff]
  intro r hr
  rw [singleTouchFn]
  by_cases hid : r.id = row.id
  · have hw := h r hr (hid.trans hrow)
    rw [hw, Bool.and_false]
    simp
  · have hb : (r.id == row.id) = false := by
      simp [hid]
    rw [hb, Bool.false_and]
    simp

theorem executeBatchUpdate_ok_inv {t : Table} {workspaceId : Int}
    {db ndb : List DbRow} {batch : List NormRow} {cols : List String}
    {rets : List RetRow} {miss : List Int}
    (h : executeBatchUpdate t workspaceId db batch cols = .ok (ndb, rets, miss)) :
    ndb = db.map (batchUpdFn t workspaceId batch cols) ∧
    rets = (db.filterMap (batchTouchFn t workspaceId batch cols)).map (retOf cols) ∧
    miss = ((batch.map (fun d => d.id)).dedup).filter
      (fun j => !((rets.map (fun rr => rr.id)).contains j)) := by
  by_cases hv : ((db.filterMap (batchTouchFn t workspaceId batch cols)).any
      t.violates) = true
  · have herr : executeBatchUpdate t workspaceId db batch cols = .error () := by
      simp only [executeBatchUpdate, hv, eq_self_iff_true, if_true]
    rw [herr] at h
    cases h
  · simp only [executeBatchUpdate, hv, Bool.false_eq_true, if_false,
      Except.ok.injEq, Prod.mk.injEq] at h
    obtain ⟨h1, h2, h3⟩ := h
    refine ⟨h1.symm, h2.symm, ?_⟩
    rw [← h3, ← h2]

/-- Under `NoMatch` for id `i`, the fallback loop (a) reports every row
with id `i` as `rowNotFoundMsg`, (b) never lists `i` among the updated
entries, and (c) keeps `NoMatch` on the session it leaves behind. -/
theorem fallback_noMatch {t : Table} {workspaceId i : Int} (cols : List String) :
    ∀ (rows : List NormRow) (s : Session),
      NoMatch t workspaceId i s.committed → NoMatch t workspaceId i s.pending →
      ((∀ row ∈ rows, row.id = i →
          (⟨i, rowNotFoundMsg⟩ : ErrEntry)
            ∈ (fallbackRowByRow t workspaceId cols s rows).2.1) ∧
       (∀ rr ∈ (fallbackRowByRow t workspaceId cols s rows).1, rr.id ≠ i) ∧
       NoMatch t workspaceId i
         (fallbackRowByRow t workspaceId cols s rows).2.2.1.committed ∧
       NoMatch t workspaceId i
         (fallbackRowByRow t workspaceId cols s rows).2.2.1.pending)
  | [], s, hc, hp => ⟨fun _ h => absurd h (List.not_mem_nil _), fun _ h => absurd h (List.not_mem_nil _), hc, hp⟩
  | row :: rest, s, hc, hp => by
    rw [fallbackRowByRow]
    by_cases hv :
        ((s.pending.filterMap (singleTouchFn t workspaceId cols row)).any
          t.violates) = true
    · simp only [hv, if_true]
      obtain ⟨ih1, ih2, ih3, ih4⟩ := fallback_noMatch cols rest (rollbackS s) hc hc
      refine ⟨?_, ih2, ih3, ih4⟩
      intro row2 hrow2 hid2
      rcases List.mem_cons.mp hrow2 with hEq | hTail
      · subst hEq
        rw [singleTouched_nil hp hid2] at hv
        cases hv
      · exact List.mem_cons_of_mem _ (ih1 row2 hTail hid2)
    · simp only [hv, Bool.false_eq_true, if_false]
      rcases hhd : (s.pending.filterMap
          (singleTouchFn t workspaceId cols row)).head? with _ | outRow
      · dsimp only
        obtain ⟨ih1, ih2, ih3, ih4⟩ := fallback_noMatch cols rest
          ⟨s.committed, s.pending.map (singleUpdFn t workspaceId cols row)⟩
          hc (noMatch_map_single cols row hp)
        refine ⟨?_, ih2, ih3, ih4⟩
        intro row2 hrow2 hid2
        rcases List.mem_cons.mp hrow2 with hEq | hTail
        · subst hEq
          rw [hid2]
          exact List.mem_cons_self _ _
        · exact List.mem_cons_of_mem _ (ih1 row2 hTail hid2)
      · dsimp only
        obtain ⟨ih1, ih2, ih3, ih4⟩ := fallback_noMatch cols rest
          (commitS ⟨s.committed, s.pending.map (singleUpdFn t workspaceId cols row)⟩)
          (noMatch_map_single cols row hp) (noMatch_map_single cols row hp)
        refine ⟨?_, ?_, ih3, ih4⟩
        · intro row2 hrow2 hid2
          rcases List.mem_cons.mp hrow2 with hEq | hTail
          · subst hEq
            rw [singleTouched_nil hp hid2] at hhd
            cases hhd
          · exact ih1 row2 hTail hid2
        · intro rr hrr
          rcases List.mem_cons.mp hrr with hEq | hTail
          · subst hEq
            have hmem : outRow ∈ s.pending.filterMap
                (singleTouchFn t workspaceId cols row) :=
              List.mem_of_mem_head? (by rw [hhd]; exact rfl)
            simp only [retOf]
            exact singleTouched_id_ne hp outRow hmem
          · exact ih2 rr hTail

theorem processChunk_noMatch {t : Table} {workspaceId i : Int}
    (s : Session) (batch : List NormRow) (cols : List String)
    (hc : NoMatch t workspaceId i s.committed)
    (hp : NoMatch t workspaceId i s.pending) :
    ((∃ row ∈ batch, row.id = i) →
      (⟨i, rowNotFoundMsg⟩ : ErrEntry)
        ∈ (processChunk t workspaceId s batch cols).2.1) ∧
    (∀ rr ∈ (processChunk t workspaceId s batch cols).1, rr.id ≠ i) ∧
    NoMatch t workspaceId i
      (processChunk t workspaceId s batch cols).2.2.1.committed ∧
    NoMatch t workspaceId i
      (processChunk t workspaceId s batch cols).2.2.1.pending := by
  cases hE : executeBatchUpdate t workspaceId s.pending batch cols with
  | error e =>
    cases e
    simp only [processChunk, hE]
    obtain ⟨ih1, ih2, ih3, ih4⟩ := fallback_noMatch cols batch (rollbackS s) hc hc
    exact ⟨fun ⟨row, hrow, hid⟩ => ih1 row hrow hid, ih2, ih3, ih4⟩
  | ok out =>
    obtain ⟨ndb, rets, miss⟩ := out
    obtain ⟨h1, h2, h3⟩ := executeBatchUpdate_ok_inv hE
    simp only [processChunk, hE]
    refine ⟨?_, ?_, ?_, ?_⟩
    · rintro ⟨row, hrow, hid⟩
      apply List.mem_map.mpr
      refine ⟨i, ?_, rfl⟩
      rw [h3]
      apply List.mem_filter.mpr
      constructor
      · rw [List.mem_dedup]
        apply List.mem_map.mpr
        exact ⟨row, hrow, hid⟩
      · simp only [Bool.not_eq_eq_eq_not, Bool.not_true]
        rw [← Bool.not_eq_true, List.elem_iff]
        intro hmem
        obtain ⟨rr, hrr, hrid⟩ := List.mem_map.mp hmem
        rw [h2] at hrr
        obtain ⟨r2, hr2, hret⟩ := List.mem_map.mp hrr
        have := batchTouched_id_ne hp r2 hr2
        rw [← hret] at hrid
        simp only [retOf] at hrid
        exact this hrid
    · intro rr hrr
      rw [h2] at hrr
      obtain ⟨r2, hr2, hret⟩ := List.mem_map.mp hrr
      have := batchTouched_id_ne hp r2 hr2
      rw [← hret]
      simp only [retOf]
      exact this
    · simp only [commitS]
      rw [h1]
      exact noMatch_map_batch batch cols hp
    · simp only [commitS]
      rw [h1]
      exact noMatch_map_batch batch cols hp

theorem processChunks_noMatch {t : Table} {workspaceId i : Int} (cols : List String) :
    ∀ (chunks : List (List NormRow)) (s : Session),
      NoMatch t workspaceId i s.committed → NoMatch t workspaceId i s.pending →
      ((∃ c ∈ chunks, ∃ row ∈ c, row.id = i) →
        (⟨i, rowNotFoundMsg⟩ : ErrEntry)
          ∈ (processChunks t workspaceId cols s chunks).2.1) ∧
      (∀ rr ∈ (processChunks t workspaceId cols s chunks).1, rr.id ≠ i) ∧
      NoMatch t workspaceId i
        (processChunks t workspaceId cols s chunks).2.2.1.committed ∧
      NoMatch t workspaceId i
        (processChunks t workspaceId cols s chunks).2.2.1.pending
  | [], s, hc, hp =>
    ⟨fun ⟨c, hcm, _⟩ => absurd hcm (List.not_mem_nil c),
     fun _ h => absurd h (List.not_mem_nil _), hc, hp⟩
  | batch :: rest, s, hc, hp => by
    rw [processChunks]
    by_cases hb : batch.isEmpty = true
    · simp only [hb, if_true]
      obtain ⟨ih1, ih2, ih3, ih4⟩ := processChunks_noMatch cols rest s hc hp
      refine ⟨?_, ih2, ih3, ih4⟩
      rintro ⟨c, hcm, row, hrow, hid⟩
      rcases List.mem_cons.mp hcm with hEq | hTail
      · subst hEq
        rw [List.isEmpty_iff.mp hb] at hrow
        cases hrow
      · exact ih1 ⟨c, hTail, row, hrow, hid⟩
    · simp only [hb, Bool.false_eq_true, if_false]
      obtain ⟨h1, h2, h3, h4⟩ := processChunk_noMatch s batch cols hc hp
      obtain ⟨ih1, ih2, ih3, ih4⟩ := processChunks_noMatch cols rest
        (processChunk t workspaceId s batch cols).2.2.1 h3 h4
      refine ⟨?_, ?_, ih3, ih4⟩
      · rintro ⟨c, hcm, row, hrow, hid⟩
        rcases List.mem_cons.mp hcm with hEq | hTail
        · subst hEq
          exact List.mem_append_left _ (h1 ⟨row, hrow, hid⟩)
        · exact List.mem_append_right _ (ih1 ⟨c, hTail, row, hrow, hid⟩)
      · intro rr hrr
        rcases List.mem_append.mp hrr with hL | hR
        · exact h2 rr hL
        · exact ih2 rr hR

theorem processGroups_noMatch {t : Table} {workspaceId i : Int} :
    ∀ (groups : List (List String × List NormRow)) (s : Session),
      NoMatch t workspaceId i s.committed → NoMatch t workspaceId i s.pending →
      ((∃ k g, (k, g) ∈ groups ∧
          ∃ c ∈ chunkList (maxRowsPerBatch (1 + k.length)) g, ∃ row ∈ c, row.id = i) →
        (⟨i, rowNotFoundMsg⟩ : ErrEntry)
          ∈ (processGroups t workspaceId s groups).2.1) ∧
      (∀ rr ∈ (processGroups t workspaceId s groups).1, rr.id ≠ i) ∧
      NoMatch t workspaceId i
        (processGroups t workspaceId s groups).2.2.1.committed ∧
      NoMatch t workspaceId i
        (processGroups t workspaceId s groups).2.2.1.pending
  | [], s, hc, hp =>
    ⟨fun ⟨k, g, hkg, _⟩ => absurd hkg (List.not_mem_nil (k, g)),
     fun _ h => absurd h (List.not_mem_nil _), hc, hp⟩
  | (colsKey, rows) :: rest, s, hc, hp => by
    rw [processGroups]
    obtain ⟨h1, h2, h3, h4⟩ := processChunks_noMatch colsKey
      (chunkList (maxRowsPerBatch (1 + colsKey.length)) rows) s hc hp
    obtain ⟨ih1, ih2, ih3, ih4⟩ := processGroups_noMatch rest
      (processChunks t workspaceId colsKey s
        (chunkList (maxRowsPerBatch (1 + colsKey.length)) rows)).2.2.1 h3 h4
    refine ⟨?_, ?_, ih3, ih4⟩
    · rintro ⟨k, g, hkg, c, hcm, row, hrow, hid⟩
      rcases List.mem_cons.mp hkg with hEq | hTail
      · injection hEq with he1 he2
        subst he1
        subst he2
        exact List.mem_append_left _ (h1 ⟨c, hcm, row, hrow, hid⟩)
      · exact List.mem_append_right _ (ih1 ⟨k, g, hTail, c, hcm, row, hrow, hid⟩)
    · intro rr hrr
      rcases List.mem_append.mp hrr with hL | hR
      · exact h2 rr hL
      · exact ih2 rr hR

theorem normalizeItem_id (updateFields : Option (List String))
    (includeNone : Bool) (item : UpdateItem) :
    (normalizeItem updateFields includeNone item).id = item.id := by
  cases updateFields <;> rfl

/-! ## C1 -/

/-- **C1.**  Tenant isolation as silent filtering.  Let `bad` be a table
row that fails the workspace predicate (a foreign tenant's row on a
table with a tenant column).  Then (a) a whole `bulk_update` call run on
a database containing `bad` returns exactly the same response as the
call run with `bad` deleted — foreign-tenant rows are indistinguishable
from nonexistent ones; and (b) every payload row whose id matches no
workspace-visible row (a foreign-tenant id or a nonexistent id alike) is
excluded from `updated` and appended to `errors` with the message
`"row not found or workspace mismatch"`. -/
theorem claim1_tenant_isolation (t : Table) (workspaceId : Int)
    (bad : DbRow) (p q : List DbRow) (payload : List UpdateItem)
    (updateFields : Option (List String)) (includeNone : Bool)
    (hbad : wsOk t workspaceId bad = false) :
    (bulkUpdate t workspaceId ⟨p ++ bad :: q, p ++ bad :: q⟩
        payload updateFields includeNone).1
      = (bulkUpdate t workspaceId ⟨p ++ q, p ++ q⟩
          payload updateFields includeNone).1 ∧
    (∀ item ∈ payload,
      colsOf (normalizeItem updateFields includeNone item) ≠ [] →
      NoMatch t workspaceId item.id (p ++ bad :: q) →
      (⟨item.id, rowNotFoundMsg⟩ : ErrEntry)
        ∈ (bulkUpdate t workspaceId ⟨p ++ bad :: q, p ++ bad :: q⟩
            payload updateFields includeNone).1.errors ∧
      (∀ rr ∈ (bulkUpdate t workspaceId ⟨p ++ bad :: q, p ++ bad :: q⟩
          payload updateFields includeNone).1.updated, rr.id ≠ item.id)) := by
  constructor
  · by_cases hpe : payload.isEmpty = true
    · rw [bulkUpdate, bulkUpdate, if_pos hpe, if_pos hpe]
    · rw [bulkUpdate, bulkUpdate, if_neg hpe, if_neg hpe]
      obtain ⟨h1, h2, h3, h4⟩ := processGroups_sim hbad
        (groupByCols (payload.map (normalizeItem updateFields includeNone)))
        ⟨p ++ bad :: q, p ++ bad :: q⟩ ⟨p ++ q, p ++ q⟩
        ⟨⟨p, q, rfl, rfl⟩, ⟨p, q, rfl, rfl⟩⟩
      dsimp only
      rw [h1, h2]
  · intro item hmem hne hnm
    have hpe : ¬ (payload.isEmpty = true) := by
      cases payload
      · cases hmem
      · simp [List.isEmpty]
    have hmem' : normalizeItem updateFields includeNone item
        ∈ payload.map (normalizeItem updateFields includeNone) :=
      List.mem_map_of_mem _ hmem
    obtain ⟨g, hkg, hng⟩ := groupByCols_hasRow
      (payload.map (normalizeItem updateFields includeNone)) hmem' hne
    have hflat : normalizeItem updateFields includeNone item ∈
        (chunkList (maxRowsPerBatch
          (1 + (colsOf (normalizeItem updateFields includeNone item)).length)) g).flatten := by
      rw [chunkList_join]
      exact hng
    obtain ⟨c, hcm, hnc⟩ := List.mem_flatten.mp hflat
    obtain ⟨hg1, hg2, _, _⟩ := @processGroups_noMatch t workspaceId item.id
      (groupByCols (payload.map (normalizeItem updateFields includeNone)))
      ⟨p ++ bad :: q, p ++ bad :: q⟩ hnm hnm
    have hexists : ∃ k g2,
        (k, g2) ∈ groupByCols (payload.map (normalizeItem updateFields includeNone)) ∧
        ∃ c2 ∈ chunkList (maxRowsPerBatch (1 + k.length)) g2,
          ∃ row ∈ c2, row.id = item.id :=
      ⟨colsOf (normalizeItem updateFields includeNone item), g, hkg, c, hcm,
        normalizeItem updateFields includeNone item, hnc,
        normalizeItem_id updateFields includeNone item⟩
    constructor
    · rw [bulkUpdate, if_neg hpe]
      exact List.mem_append_left _ (hg1 hexists)
    · intro rr hrr
      rw [bulkUpdate, if_neg hpe] at hrr
      exact hg2 rr hrr

/-- Witness for `claim1_tenant_isolation`: the example database holds
row 1 in workspace 7 and row 2 in workspace 8; a bulk update in
workspace 7 targeting both ids responds exactly as if row 2 did not
exist, and reports id 2 as `"row not found or workspace mismatch"`. -/
theorem claim1_witness :
    (bulkUpdate exTable 7
        ⟨[⟨1, [("workspace_id", some 7), ("a", some 10)]⟩,
          ⟨2, [("workspace_id", some 8), ("a", some 20)]⟩],
         [⟨1, [("workspace_id", some 7), ("a", some 10)]⟩,
          ⟨2, [("workspace_id", some 8), ("a", some 20)]⟩]⟩
        [⟨1, [("a", some 100)]⟩, ⟨2, [("a", some 200)]⟩] none false).1
      = (bulkUpdate exTable 7
          ⟨[⟨1, [("workspace_id", some 7), ("a", some 10)]⟩],
           [⟨1, [("workspace_id", some 7), ("a", some 10)]⟩]⟩
          [⟨1, [("a", some 100)]⟩, ⟨2, [("a", some 200)]⟩] none false).1 ∧
    ((⟨(2 : Int), rowNotFoundMsg⟩ : ErrEntry)
        ∈ (bulkUpdate exTable 7
            ⟨[⟨1, [("workspace_id", some 7), ("a", some 10)]⟩,
              ⟨2, [("workspace_id", some 8), ("a", some 20)]⟩],
             [⟨1, [("workspace_id", some 7), ("a", some 10)]⟩,
              ⟨2, [("workspace_id", some 8), ("a", some 20)]⟩]⟩
            [⟨1, [("a", some 100)]⟩, ⟨2, [("a", some 200)]⟩] none false).1.errors ∧
      (∀ rr ∈ (bulkUpdate exTable 7
          ⟨[⟨1, [("workspace_id", some 7), ("a", some 10)]⟩,
            ⟨2, [("workspace_id", some 8), ("a", some 20)]⟩],
           [⟨1, [("workspace_id", some 7), ("a", some 10)]⟩,
            ⟨2, [("workspace_id", some 8), ("a", some 20)]⟩]⟩
          [⟨1, [("a", some 100)]⟩, ⟨2, [("a", some 200)]⟩] none false).1.updated,
        rr.id ≠ (2 : Int))) :=
  ⟨(claim1_tenant_isolation exTable 7
      ⟨2, [("workspace_id", some 8), ("a", some 20)]⟩
      [⟨1, [("workspace_id", some 7), ("a", some 10)]⟩] []
      [⟨1, [("a", some 100)]⟩, ⟨2, [("a", some 200)]⟩] none false (by decide)).1,
   (claim1_tenant_isolation exTable 7
      ⟨2, [("workspace_id", some 8), ("a", some 20)]⟩
      [⟨1, [("workspace_id", some 7), ("a", some 10)]⟩] []
      [⟨1, [("a", some 100)]⟩, ⟨2, [("a", some 200)]⟩] none false (by decide)).2
     ⟨2, [("a", some 200)]⟩ (by decide) (by decide) (by unfold NoMatch; decide)⟩

end TemplateFastApi
